import Mathlib

/-!
Shallow embedding of the per-session message store of the mosquitto broker
(`src/src/database.c`) and proofs about its specification.

Modelling conventions:
- C machine integers that only count or measure (list byte/count accounting,
  `int`/`long`/`ssize_t` fields) are modelled as `Int`, mirroring the signed
  arithmetic of the source; quantities that are unsigned and floor at zero in
  the source (`inflight_quota`, a `uint16_t` decremented only under a `> 0`
  guard) are modelled as `Nat` with truncated subtraction.
- NULL pointers become `Option`; the intrusive doubly-linked `DL_*` lists
  become Lean `List`s (DL_APPEND appends at the tail, DL_DELETE removes the
  node in place, DL_FOREACH iterates front to back).
- External collaborators (`send__publish`, `send__pubrel`, `send__pubrec`,
  `sub__messages_queue`) are oracles carried in an `Env`, keyed by the
  per-session `cmsg_id` of the message being sent.  Persistence hooks and
  logging are modelled as counters/flags where a claim observes them and
  dropped otherwise.  Memory allocation is modelled as always succeeding.
- The shared base-message store is not modelled as a hash table: each
  `ClientMsg` carries a copy of its base message, and operations that mutate
  the base message (`ref_count`, `dest_ids`) return the updated base message
  to the caller.
-/

namespace Mosq

/-- `enum mosquitto_msg_state` from mosquitto_broker_internal.h. -/
inductive MsgState
  | ms_invalid
  | publish_qos0
  | publish_qos1
  | publish_qos2
  | wait_for_puback
  | wait_for_pubrec
  | wait_for_pubrel
  | wait_for_pubcomp
  | send_pubrec
  | resend_pubrel
  | resend_pubcomp
  | ms_queued
  deriving DecidableEq, Repr

/-- `enum mosquitto_msg_direction`. -/
inductive Direction
  | md_in
  | md_out
  deriving DecidableEq, Repr

/-- Return codes used by the operations in database.c.  `rc2` is the literal
`return 2` meaning "queued or dropped"; `err1` is the literal `return 1` in
`db__message_release_incoming`. -/
inductive Rc
  | ok
  | rc2
  | inval
  | nomem
  | protocol
  | notFound
  | err1
  deriving DecidableEq, Repr

/-- Outcome of the external `send__publish` / `send__pubrel` collaborators. -/
inductive SendResult
  | success
  | oversize
  | other
  deriving DecidableEq, Repr

/-- Outcome of the external `sub__messages_queue` collaborator. -/
inductive SubqResult
  | success
  | noSubscribers
  | failure
  deriving DecidableEq, Repr

/-- `struct mosquitto__base_msg` (the fields the claims observe). -/
structure BaseMsg where
  db_id : Nat
  topic : Option String
  payloadlen : Nat
  qos : Nat
  retain : Bool
  source_mid : Nat
  message_expiry_time : Nat
  ref_count : Nat
  dest_ids : List String
  deriving DecidableEq, Repr

/-- `struct mosquitto_client_msg`. -/
structure ClientMsg where
  cmsg_id : Nat
  base_msg : BaseMsg
  mid : Nat
  direction : Direction
  state : MsgState
  qos : Nat
  retain : Bool
  dup : Bool
  subscription_identifier : Nat
  deriving DecidableEq, Repr

/-- `struct mosquitto_msg_data`: one per direction per session. -/
structure MsgData where
  inflight : List ClientMsg
  queued : List ClientMsg
  inflight_maximum : Nat
  inflight_quota : Nat
  inflight_count : Int
  inflight_count12 : Int
  inflight_bytes : Int
  inflight_bytes12 : Int
  queued_count : Int
  queued_count12 : Int
  queued_bytes : Int
  queued_bytes12 : Int
  deriving DecidableEq, Repr

/-- The recognized configuration options (`db.config`). -/
structure Config where
  max_inflight_bytes : Nat
  max_queued_messages : Nat
  max_queued_bytes : Nat
  allow_duplicate_messages : Bool
  queue_qos0_messages : Bool
  retain_available : Bool
  deriving DecidableEq, Repr

/-- The bridge fields consulted by `db__message_insert_outgoing`. -/
structure Bridge where
  start_type_lazy : Bool
  clean_start_local : Bool
  threshold : Int
  lazy_reconnect : Bool
  deriving DecidableEq, Repr

/-- `context->stats` counters the claims observe. -/
structure SessionStats where
  messages_sent : Nat
  messages_dropped : Nat
  deriving DecidableEq, Repr

/-- `struct mosquitto` (a session/context), restricted to the fields database.c
reads or writes.  `connected` models `net__is_connected(context)`, `cs_active`
models `context->state == mosq_cs_active`. -/
structure Context where
  id : Option String
  msgs_in : MsgData
  msgs_out : MsgData
  is_dropping : Bool
  stats : SessionStats
  max_qos : Nat
  protocol_v5 : Bool
  connected : Bool
  cs_active : Bool
  last_cmsg_id : Nat
  out_packet_count : Nat
  bridge : Option Bridge
  deriving DecidableEq, Repr

/-- The pieces of the global `db` singleton plus the external collaborators:
configuration, wall clock (`db.now_real_s`), and the send/route oracles keyed
by the `cmsg_id` of the client message being acted on. -/
structure Env where
  cfg : Config
  now : Nat
  pub : Nat → SendResult
  pubrel : Nat → SendResult
  subq : Nat → SubqResult

/-- Payload length of a client message, as counted by the stats helpers. -/
def plen (m : ClientMsg) : Int := (m.base_msg.payloadlen : Int)

/-- Payload length counted only for QoS 1/2 messages. -/
def plen12 (m : ClientMsg) : Int :=
  if m.qos ≠ 0 then (m.base_msg.payloadlen : Int) else 0

/-- Sum of payload lengths of a message list. -/
def sumP (l : List ClientMsg) : Int := (l.map plen).sum

/-- Sum of payload lengths of the QoS 1/2 subset of a message list. -/
def sumP12 (l : List ClientMsg) : Int := (l.map plen12).sum

/-- `db__ready_for_flight`, as a function of the config, the session's
`out_packet_count`, and the directional message data.  The `ssize_t` casts of
the source become plain `Int` arithmetic. -/
def readyForFlightD (cfg : Config) (opc : Nat) (d : MsgData) (dir : Direction) (qos : Nat) : Bool :=
  if d.inflight_maximum = 0 ∧ cfg.max_inflight_bytes = 0 then
    true
  else if qos = 0 then
    if cfg.max_queued_messages = 0 ∧ cfg.max_inflight_bytes = 0 then
      true
    else
      let valid_bytes := d.inflight_bytes - (cfg.max_inflight_bytes : Int) < (cfg.max_queued_bytes : Int)
      let valid_count :=
        if dir = .md_out then (opc : Int) < (cfg.max_queued_messages : Int)
        else d.inflight_count - (d.inflight_maximum : Int) < (cfg.max_queued_messages : Int)
      if cfg.max_queued_messages = 0 then valid_bytes
      else if cfg.max_queued_bytes = 0 then valid_count
      else valid_bytes && valid_count
  else
    let valid_bytes := d.inflight_bytes12 < (cfg.max_inflight_bytes : Int)
    let valid_count := 0 < d.inflight_quota
    if d.inflight_maximum = 0 then valid_bytes
    else if cfg.max_inflight_bytes = 0 then valid_count
    else valid_bytes && valid_count

/-- Select a session's message data by direction. -/
def msgsOf (c : Context) (dir : Direction) : MsgData :=
  match dir with
  | .md_out => c.msgs_out
  | .md_in => c.msgs_in

/-- `db__ready_for_flight(context, dir, qos)`. -/
def readyForFlight (env : Env) (c : Context) (dir : Direction) (qos : Nat) : Bool :=
  readyForFlightD env.cfg c.out_packet_count (msgsOf c dir) dir qos

/-- `db__ready_for_queue(context, qos, msg_data)`. -/
def readyForQueue (env : Env) (connected : Bool) (qos : Nat) (d : MsgData) : Bool :=
  if env.cfg.max_queued_messages = 0 ∧ env.cfg.max_queued_bytes = 0 then
    true
  else if qos = 0 ∧ env.cfg.queue_qos0_messages = false then
    false
  else
    let source_bytes : Int := d.queued_bytes12
    let source_count : Int := d.queued_count12
    let adjust_bytes : Int := if connected then (env.cfg.max_inflight_bytes : Int) else 0
    let adjust_count : Int := if connected then (d.inflight_maximum : Int) else 0
    let valid_bytes := source_bytes - adjust_bytes < (env.cfg.max_queued_bytes : Int)
    let valid_count := source_count - adjust_count < (env.cfg.max_queued_messages : Int)
    if env.cfg.max_queued_bytes = 0 then valid_count
    else if env.cfg.max_queued_messages = 0 then valid_bytes
    else valid_bytes && valid_count

/-- `db__msg_add_to_inflight_stats`. -/
def addToInflightStats (d : MsgData) (m : ClientMsg) : MsgData :=
  { d with
    inflight_count := d.inflight_count + 1
    inflight_bytes := d.inflight_bytes + (m.base_msg.payloadlen : Int)
    inflight_count12 := if m.qos ≠ 0 then d.inflight_count12 + 1 else d.inflight_count12
    inflight_bytes12 :=
      if m.qos ≠ 0 then d.inflight_bytes12 + (m.base_msg.payloadlen : Int) else d.inflight_bytes12 }

/-- `db__msg_remove_from_inflight_stats`. -/
def removeFromInflightStats (d : MsgData) (m : ClientMsg) : MsgData :=
  { d with
    inflight_count := d.inflight_count - 1
    inflight_bytes := d.inflight_bytes - (m.base_msg.payloadlen : Int)
    inflight_count12 := if m.qos ≠ 0 then d.inflight_count12 - 1 else d.inflight_count12
    inflight_bytes12 :=
      if m.qos ≠ 0 then d.inflight_bytes12 - (m.base_msg.payloadlen : Int) else d.inflight_bytes12 }

/-- `db__msg_add_to_queued_stats`. -/
def addToQueuedStats (d : MsgData) (m : ClientMsg) : MsgData :=
  { d with
    queued_count := d.queued_count + 1
    queued_bytes := d.queued_bytes + (m.base_msg.payloadlen : Int)
    queued_count12 := if m.qos ≠ 0 then d.queued_count12 + 1 else d.queued_count12
    queued_bytes12 :=
      if m.qos ≠ 0 then d.queued_bytes12 + (m.base_msg.payloadlen : Int) else d.queued_bytes12 }

/-- `db__msg_remove_from_queued_stats`. -/
def removeFromQueuedStats (d : MsgData) (m : ClientMsg) : MsgData :=
  { d with
    queued_count := d.queued_count - 1
    queued_bytes := d.queued_bytes - (m.base_msg.payloadlen : Int)
    queued_count12 := if m.qos ≠ 0 then d.queued_count12 - 1 else d.queued_count12
    queued_bytes12 :=
      if m.qos ≠ 0 then d.queued_bytes12 - (m.base_msg.payloadlen : Int) else d.queued_bytes12 }

/-- `db__message_dequeue_first`: move the head of `queued` to the tail of
`inflight`, decrement `inflight_quota` (only when positive, as in the source's
`if(msg_data->inflight_quota > 0)` guard; `Nat` subtraction coincides with it),
and transfer the stats.  The source dereferences the head unconditionally and
is only called with a nonempty queue; an empty queue is a no-op here. -/
def dequeueFirstD (d : MsgData) : MsgData :=
  match d.queued with
  | [] => d
  | m :: rest =>
      addToInflightStats
        (removeFromQueuedStats
          { d with
            queued := rest
            inflight := d.inflight ++ [m]
            inflight_quota := d.inflight_quota - 1 } m) m

/-- Modelled from the spec: `util__decrement_send_quota` (util_mosq.c is not
part of the sources; §6 lists the send-quota helper, §4.F uses it to recompute
the remaining outgoing window after reseeding `inflight_quota` from
`inflight_maximum`).  Decrements the outgoing window quota, never below 0. -/
def decrementSendQuota (c : Context) : Context :=
  { c with msgs_out := { c.msgs_out with inflight_quota := c.msgs_out.inflight_quota - 1 } }

/-- Modelled from the spec: `util__increment_send_quota` (§6, §4.F "restore
send quota").  Restores one unit of the outgoing window quota. -/
def incrementSendQuota (c : Context) : Context :=
  { c with msgs_out := { c.msgs_out with inflight_quota := c.msgs_out.inflight_quota + 1 } }

/-- Modelled from the spec: `util__decrement_receive_quota` (§6), the incoming
analogue of `util__decrement_send_quota`. -/
def decrementReceiveQuota (c : Context) : Context :=
  { c with msgs_in := { c.msgs_in with inflight_quota := c.msgs_in.inflight_quota - 1 } }

/-- Modelled from the spec: `util__increment_receive_quota` (§6, §4.F), the
incoming analogue of `util__increment_send_quota`. -/
def incrementReceiveQuota (c : Context) : Context :=
  { c with msgs_in := { c.msgs_in with inflight_quota := c.msgs_in.inflight_quota + 1 } }

/-- The effect `db__message_write_inflight_out_single` has on the message it
is given: remove it from the inflight list (optionally restoring one unit of
send quota), update its state/dup flags in place, leave it alone, or abort
the caller's sweep with a propagated error code. -/
inductive SingleAct
  | removeMsg (incSendQuota : Bool)
  | setState (st : MsgState) (dup : Bool)
  | keep
  | propagate (rc : Rc)
  deriving DecidableEq, Repr

/-- Result of one `db__message_write_inflight_out_single` call: the action on
the message plus whether a PUBLISH and/or PUBREL was handed to the sender. -/
structure SingleStep where
  act : SingleAct
  sentPublish : Bool
  sentPubrel : Bool
  deriving DecidableEq, Repr

/-- Error code propagated for a send failure that is neither success nor
`MOSQ_ERR_OVERSIZE_PACKET` (the source returns the sender's code unchanged). -/
def sendErrRc : Rc := .err1

/-- Error code propagated when `send__pubrel`/`send__publish` reports an
oversize packet in a state where it is not swallowed. -/
def oversizeRc : Rc := .nomem

/-- `db__message_write_inflight_out_single`: expiry check first, then dispatch
on the message state. -/
def writeInflightOutSingle (env : Env) (m : ClientMsg) : SingleStep :=
  if m.base_msg.message_expiry_time ≠ 0 ∧ env.now > m.base_msg.message_expiry_time then
    ⟨.removeMsg (m.direction = .md_out ∧ m.qos > 0), false, false⟩
  else
    match m.state with
    | .publish_qos0 =>
        match env.pub m.cmsg_id with
        | .success => ⟨.removeMsg false, true, false⟩
        | .oversize => ⟨.removeMsg false, true, false⟩
        | .other => ⟨.propagate sendErrRc, true, false⟩
    | .publish_qos1 =>
        match env.pub m.cmsg_id with
        | .success => ⟨.setState .wait_for_puback true, true, false⟩
        | .oversize => ⟨.removeMsg false, true, false⟩
        | .other => ⟨.propagate sendErrRc, true, false⟩
    | .publish_qos2 =>
        match env.pub m.cmsg_id with
        | .success => ⟨.setState .wait_for_pubrec true, true, false⟩
        | .oversize => ⟨.removeMsg false, true, false⟩
        | .other => ⟨.propagate sendErrRc, true, false⟩
    | .resend_pubrel =>
        match env.pubrel m.cmsg_id with
        | .success => ⟨.setState .wait_for_pubcomp m.dup, false, true⟩
        | .oversize => ⟨.propagate oversizeRc, false, true⟩
        | .other => ⟨.propagate sendErrRc, false, true⟩
    | _ => ⟨.keep, false, false⟩

/-- The sweep of `db__message_write_inflight_out_all` /
`..._out_latest` over a section of the outgoing inflight list: apply
`writeInflightOutSingle` to each message in turn, removing/updating messages
(with the matching stats and quota bookkeeping of
`db__message_remove_inflight`) and stopping at the first propagated error.
Returns the surviving messages of the section, the updated scalar fields,
and the propagated error if any. -/
def restoreQuota (b : Bool) (d : MsgData) : MsgData :=
  if b then { d with inflight_quota := d.inflight_quota + 1 } else d

/-- Conditional decrement of the directional window quota (the effect of the
spec-modelled `util__decrement_send_quota` / `util__decrement_receive_quota`
on the direction's own `MsgData`). -/
def spendQuota (b : Bool) (d : MsgData) : MsgData :=
  if b then { d with inflight_quota := d.inflight_quota - 1 } else d

def writeMsgs (env : Env) : List ClientMsg → MsgData → (List ClientMsg × MsgData × Option Rc)
  | [], d => ([], d, none)
  | m :: rest, d =>
    match (writeInflightOutSingle env m).act with
    | .removeMsg inc =>
        writeMsgs env rest (restoreQuota inc (removeFromInflightStats d m))
    | .setState st dp =>
        ({ m with state := st, dup := dp } :: (writeMsgs env rest d).1, (writeMsgs env rest d).2)
    | .keep =>
        (m :: (writeMsgs env rest d).1, (writeMsgs env rest d).2)
    | .propagate rc => (m :: rest, d, some rc)

/-- `db__message_write_inflight_out_all`. -/
def writeInflightOutAll (env : Env) (c : Context) : Rc × Context :=
  if ¬(c.cs_active ∧ c.connected) then (.ok, c)
  else
    let r := writeMsgs env c.msgs_out.inflight c.msgs_out
    (r.2.2.getD .ok, { c with msgs_out := { r.2.1 with inflight := r.1 } })

/-- The publish states skipped by the backward walk of
`db__message_write_inflight_out_latest`. -/
def isPublishState : MsgState → Bool
  | .publish_qos0 => true
  | .publish_qos1 => true
  | .publish_qos2 => true
  | _ => false

/-- Index at which the forward sweep of
`db__message_write_inflight_out_latest` starts: the walk steps backwards from
the tail over contiguous publish-state entries, stops at the head or at the
first non-publish entry, and (when stopped at a non-publish entry) steps
forward once. -/
def latestStartIdx (l : List ClientMsg) : Nat :=
  match (l.drop 1).reverse.findIdx? (fun m => !(isPublishState m.state)) with
  | some k => l.length - k
  | none => 0

/-- `db__message_write_inflight_out_latest`. -/
def writeInflightOutLatest (env : Env) (c : Context) : Rc × Context :=
  if ¬(c.cs_active ∧ c.connected) ∨ c.msgs_out.inflight = [] then (.ok, c)
  else
    let l := c.msgs_out.inflight
    let s := latestStartIdx l
    let r := writeMsgs env (l.drop s) c.msgs_out
    (r.2.2.getD .ok, { c with msgs_out := { r.2.1 with inflight := l.take s ++ r.1 } })

/-- The `switch(qos)` that picks `mosq_ms_publish_qosN`; a qos outside 0..2
leaves the state unchanged (the source's switch has no default). -/
def pubStateFor (qos : Nat) (st : MsgState) : MsgState :=
  match qos with
  | 0 => .publish_qos0
  | 1 => .publish_qos1
  | 2 => .publish_qos2
  | _ => st

/-- The promotion loop shared by `db__message_write_queued_out` and
`db__message_delete_outgoing`: while the head of `queued` passes
`db__ready_for_flight`, set its state and move it to inflight via
`db__message_dequeue_first`; stop at the first entry that does not pass.
The list argument is the current `queued` list of `d`. -/
def promoteOutAux (cfg : Config) (opc : Nat) : List ClientMsg → MsgData → MsgData
  | [], d => d
  | m :: rest, d =>
    if readyForFlightD cfg opc d .md_out m.qos then
      let m' := { m with state := pubStateFor m.qos m.state }
      let d' := dequeueFirstD { d with queued := m' :: rest }
      promoteOutAux cfg opc rest d'
    else d

/-- `db__message_write_queued_out`. -/
def writeQueuedOut (env : Env) (c : Context) : Rc × Context :=
  if ¬c.cs_active then (.ok, c)
  else (.ok, { c with msgs_out := promoteOutAux env.cfg c.out_packet_count c.msgs_out.queued c.msgs_out })

/-- Result of scanning a list for the mid in `db__message_delete_outgoing`. -/
inductive DelScan
  | removedOk (kept : List ClientMsg) (d : MsgData)
  | protoErr
  | noMatch
  deriving Repr

/-- The inflight scan of `db__message_delete_outgoing`. -/
def delScanInflight (mid : Nat) (expect : MsgState) (qos : Nat) :
    List ClientMsg → MsgData → DelScan
  | [], _ => .noMatch
  | m :: rest, d =>
    if m.mid = mid then
      if m.qos ≠ qos then .protoErr
      else if qos = 2 ∧ m.state ≠ expect then .protoErr
      else .removedOk rest (removeFromInflightStats d m)
    else
      match delScanInflight mid expect qos rest d with
      | .removedOk kept d' => .removedOk (m :: kept) d'
      | .protoErr => .protoErr
      | .noMatch => .noMatch

/-- The queued scan of `db__message_delete_outgoing`. -/
def delScanQueued (mid : Nat) (expect : MsgState) (qos : Nat) :
    List ClientMsg → MsgData → DelScan
  | [], _ => .noMatch
  | m :: rest, d =>
    if m.mid = mid then
      if m.qos ≠ qos then .protoErr
      else if qos = 2 ∧ m.state ≠ expect then .protoErr
      else .removedOk rest (removeFromQueuedStats d m)
    else
      match delScanQueued mid expect qos rest d with
      | .removedOk kept d' => .removedOk (m :: kept) d'
      | .protoErr => .protoErr
      | .noMatch => .noMatch

/-- The tail of `db__message_delete_outgoing`: promote newly fitting queued
messages, then drive `db__message_write_inflight_out_latest`. -/
def delOutFinish (env : Env) (c : Context) : Rc × Context :=
  let c1 := { c with msgs_out := promoteOutAux env.cfg c.out_packet_count c.msgs_out.queued c.msgs_out }
  writeInflightOutLatest env c1

/-- `db__message_delete_outgoing`. -/
def deleteOutgoing (env : Env) (c : Context) (mid : Nat) (expect : MsgState) (qos : Nat) :
    Rc × Context :=
  match delScanInflight mid expect qos c.msgs_out.inflight c.msgs_out with
  | .protoErr => (.protocol, c)
  | .removedOk kept d =>
      delOutFinish env { c with msgs_out := { d with inflight := kept } }
  | .noMatch =>
      match delScanQueued mid expect qos c.msgs_out.queued c.msgs_out with
      | .protoErr => (.protocol, c)
      | .removedOk kept d =>
          delOutFinish env { c with msgs_out := { d with queued := kept } }
      | .noMatch => delOutFinish env c

/-- The first entry with the given mid, searching the outgoing inflight list
and then (only when inflight holds no entry with that mid) the outgoing
queued list — the search order of `db__message_delete_outgoing`. -/
def firstMidMatch (c : Context) (mid : Nat) : Option ClientMsg :=
  match c.msgs_out.inflight.find? (fun m => m.mid == mid) with
  | some m => some m
  | none => c.msgs_out.queued.find? (fun m => m.mid == mid)

/-- The inflight scan of `db__message_update_outgoing`. -/
def updOutAux (mid : Nat) (st : MsgState) (qos : Nat) : List ClientMsg → Rc × List ClientMsg
  | [] => (.notFound, [])
  | m :: rest =>
    if m.mid = mid then
      if m.qos ≠ qos then (.protocol, m :: rest)
      else (.ok, { m with state := st } :: rest)
    else
      let r := updOutAux mid st qos rest
      (r.1, m :: r.2)

/-- `db__message_update_outgoing`. -/
def updateOutgoing (c : Context) (mid : Nat) (st : MsgState) (qos : Nat) : Rc × Context :=
  let r := updOutAux mid st qos c.msgs_out.inflight
  (r.1, { c with msgs_out := { c.msgs_out with inflight := r.2 } })

/-- The inflight scan of `db__message_remove_incoming`. -/
def remInAux (mid : Nat) : List ClientMsg → MsgData → Rc × List ClientMsg × MsgData
  | [], d => (.notFound, [], d)
  | m :: rest, d =>
    if m.mid = mid then
      if m.base_msg.qos ≠ 2 then (.protocol, m :: rest, d)
      else (.ok, rest, removeFromInflightStats d m)
    else
      let r := remInAux mid rest d
      (r.1, m :: r.2.1, r.2.2)

/-- `db__message_remove_incoming`. -/
def removeIncoming (c : Context) (mid : Nat) : Rc × Context :=
  let r := remInAux mid c.msgs_in.inflight c.msgs_in
  (r.1, { c with msgs_in := { r.2.2 with inflight := r.2.1 } })

/-- The inflight scan of `db__message_release_incoming`: every entry with the
given mid is processed (the loop has no break); a non-QoS-2 match aborts with
`PROTOCOL`, a failed hand-off to `sub__messages_queue` aborts with 1, both
leaving earlier removals in place.  Returns kept entries, updated scalars,
whether anything was removed, and the aborting code if any. -/
def relScanAux (env : Env) (mid : Nat) :
    List ClientMsg → MsgData → (List ClientMsg × MsgData × Bool × Option Rc)
  | [], d => ([], d, false, none)
  | m :: rest, d =>
    if m.mid = mid then
      if m.base_msg.qos ≠ 2 then (m :: rest, d, false, some .protocol)
      else if m.base_msg.topic = none then
        let r := relScanAux env mid rest (removeFromInflightStats d m)
        (r.1, r.2.1, true, r.2.2.2)
      else
        match env.subq m.cmsg_id with
        | .success =>
            let r := relScanAux env mid rest (removeFromInflightStats d m)
            (r.1, r.2.1, true, r.2.2.2)
        | .noSubscribers =>
            let r := relScanAux env mid rest (removeFromInflightStats d m)
            (r.1, r.2.1, true, r.2.2.2)
        | .failure => (m :: rest, d, false, some .err1)
    else
      let r := relScanAux env mid rest d
      (m :: r.1, r.2.1, r.2.2.1, r.2.2.2)

/-- The queued walk at the end of `db__message_release_incoming`, exactly as
written in the source: the loop breaks when `db__ready_for_flight` is TRUE,
and otherwise promotes QoS 2 entries (PUBREC is sent, its result ignored; the
entry's state becomes `wait_for_pubrel`; `db__message_dequeue_first` moves the
head of the queue).  `visited` is the already-iterated prefix of `d.queued`
(entries skipped because their qos is not 2), so `d.queued = visited ++ rest`
on entry; `dequeue_first` removes the head of the whole queue, which need not
be the iterated entry. -/
def relIncPromoteAux (cfg : Config) (opc : Nat) :
    List ClientMsg → List ClientMsg → MsgData → MsgData
  | _, [], d => d
  | visited, m :: rest, d =>
    if readyForFlightD cfg opc d .md_in m.qos then d
    else if m.qos = 2 then
      let m' := { m with state := MsgState.wait_for_pubrel }
      let d' := dequeueFirstD { d with queued := visited ++ m' :: rest }
      relIncPromoteAux cfg opc ((visited ++ [m']).drop 1) rest d'
    else
      relIncPromoteAux cfg opc (visited ++ [m]) rest d

/-- `db__message_release_incoming`. -/
def releaseIncoming (env : Env) (c : Context) (mid : Nat) : Rc × Context :=
  let r := relScanAux env mid c.msgs_in.inflight c.msgs_in
  let c1 := { c with msgs_in := { r.2.1 with inflight := r.1 } }
  match r.2.2.2 with
  | some rc => (rc, c1)
  | none =>
    let d := relIncPromoteAux env.cfg c1.out_packet_count [] c1.msgs_in.queued c1.msgs_in
    let c2 := { c1 with msgs_in := d }
    (if r.2.2.1 then .ok else .notFound, c2)

/-- One inflight pass of `db__expire_all_messages`: remove expired entries,
restoring one unit of the direction's window quota for QoS ≥ 1 entries. -/
def expireInflightAux (now : Nat) : List ClientMsg → MsgData → (List ClientMsg × MsgData)
  | [], d => ([], d)
  | m :: rest, d =>
    if m.base_msg.message_expiry_time ≠ 0 ∧ now > m.base_msg.message_expiry_time then
      expireInflightAux now rest
        (removeFromInflightStats (restoreQuota (decide (0 < m.qos)) d) m)
    else
      let r := expireInflightAux now rest d
      (m :: r.1, r.2)

/-- One queued pass of `db__expire_all_messages`. -/
def expireQueuedAux (now : Nat) : List ClientMsg → MsgData → (List ClientMsg × MsgData)
  | [], d => ([], d)
  | m :: rest, d =>
    if m.base_msg.message_expiry_time ≠ 0 ∧ now > m.base_msg.message_expiry_time then
      expireQueuedAux now rest (removeFromQueuedStats d m)
    else
      let r := expireQueuedAux now rest d
      (m :: r.1, r.2)

/-- `db__expire_all_messages` restricted to one direction's message data. -/
def expireMsgData (now : Nat) (d : MsgData) : MsgData :=
  let r1 := expireInflightAux now d.inflight d
  let d1 := { r1.2 with inflight := r1.1 }
  let r2 := expireQueuedAux now d1.queued d1
  { r2.2 with queued := r2.1 }

/-- `db__expire_all_messages`. -/
def expireAllMessages (env : Env) (c : Context) : Context :=
  { c with
    msgs_out := expireMsgData env.now c.msgs_out
    msgs_in := expireMsgData env.now c.msgs_in }

/-- The per-message state normalization of
`db__message_reconnect_reset_outgoing`. -/
def rrNormalizeOut (m : ClientMsg) : ClientMsg :=
  match m.qos with
  | 0 => { m with state := .publish_qos0 }
  | 1 => { m with state := .publish_qos1 }
  | 2 =>
      if m.state = .wait_for_pubcomp then { m with state := .resend_pubrel }
      else { m with state := .publish_qos2 }
  | _ => m

/-- The inflight walk of `db__message_reconnect_reset_outgoing`: recompute
stats, decrement the send quota for QoS ≥ 1 entries, normalize states. -/
def rrOutInflightAux : List ClientMsg → MsgData → (List ClientMsg × MsgData)
  | [], d => ([], d)
  | m :: rest, d =>
    let r := rrOutInflightAux rest (spendQuota (decide (0 < m.qos)) (addToInflightStats d m))
    (rrNormalizeOut m :: r.1, r.2)

/-- The queued walk shared by both reconnect resets: each entry is added to
the queued stats, and when `db__ready_for_flight` passes its state is set and
`db__message_dequeue_first` moves the head of the queue (not necessarily the
iterated entry — the loop has no break, so the two can differ).  `visited` is
the already-iterated prefix still in the queue, with `d.queued = visited ++
rest` on entry. -/
def rrQueuedAux (cfg : Config) (opc : Nat) (dir : Direction) :
    List ClientMsg → List ClientMsg → MsgData → MsgData
  | _, [], d => d
  | visited, m :: rest, d =>
    let d0 := addToQueuedStats d m
    if readyForFlightD cfg opc d0 dir m.qos then
      let m' := { m with state := pubStateFor m.qos m.state }
      let d' := dequeueFirstD { d0 with queued := visited ++ m' :: rest }
      rrQueuedAux cfg opc dir ((visited ++ [m']).drop 1) rest d'
    else
      rrQueuedAux cfg opc dir (visited ++ [m]) rest d0

/-- Zero the stats of a direction and reseed its quota, as at the top of both
reconnect resets. -/
def rrZeroStats (d : MsgData) : MsgData :=
  { d with
    inflight_bytes := 0, inflight_bytes12 := 0, inflight_count := 0, inflight_count12 := 0,
    queued_bytes := 0, queued_bytes12 := 0, queued_count := 0, queued_count12 := 0,
    inflight_quota := d.inflight_maximum }

/-- `db__message_reconnect_reset_outgoing`. -/
def reconnectResetOutgoing (env : Env) (c : Context) : Context :=
  let d0 := rrZeroStats c.msgs_out
  let r := rrOutInflightAux d0.inflight d0
  let d1 := { r.2 with inflight := r.1 }
  let d2 := rrQueuedAux env.cfg c.out_packet_count .md_out [] d1.queued d1
  { c with msgs_out := d2 }

/-- The inflight walk of `db__message_reconnect_reset_incoming`: recompute
stats, decrement the receive quota for QoS ≥ 1 entries, drop entries below
QoS 2 (the client will resend), preserve QoS 2 states. -/
def rrInInflightAux : List ClientMsg → MsgData → (List ClientMsg × MsgData)
  | [], d => ([], d)
  | m :: rest, d =>
    if m.qos ≠ 2 then
      rrInInflightAux rest
        (removeFromInflightStats (spendQuota (decide (0 < m.qos)) (addToInflightStats d m)) m)
    else
      let r := rrInInflightAux rest (spendQuota (decide (0 < m.qos)) (addToInflightStats d m))
      (m :: r.1, r.2)

/-- `db__message_reconnect_reset_incoming`. -/
def reconnectResetIncoming (env : Env) (c : Context) : Context :=
  let d0 := rrZeroStats c.msgs_in
  let r := rrInInflightAux d0.inflight d0
  let d1 := { r.2 with inflight := r.1 }
  let d2 := rrQueuedAux env.cfg c.out_packet_count .md_in [] d1.queued d1
  { c with msgs_in := d2 }

/-- `db__message_reconnect_reset`. -/
def reconnectReset (env : Env) (c : Context) : Context :=
  reconnectResetIncoming env (reconnectResetOutgoing env c)

/-- Result of an insert operation: return code, updated session, updated
base message (`ref_count`/`dest_ids` are shared state in the source and are
returned to the caller here), the number of `G_MSGS_DROPPED_INC()` calls, and
whether the "messages are being dropped" notice was logged on this call. -/
structure InsertRes where
  rc : Rc
  ctx : Context
  base : BaseMsg
  droppedInc : Nat
  loggedDrop : Bool
  deriving Repr

/-- The allocation-and-append tail of `db__message_insert_incoming`
(allocation is modelled as succeeding). -/
def insertIncomingAdmit (c : Context) (cmsg_id : Nat) (base : BaseMsg)
    (st : MsgState) (rc : Rc) : InsertRes :=
  let cmsg := if cmsg_id ≠ 0 then cmsg_id else c.last_cmsg_id + 1
  let c1 := if cmsg_id ≠ 0 then c else { c with last_cmsg_id := c.last_cmsg_id + 1 }
  let base1 := { base with ref_count := base.ref_count + 1 }
  let msg : ClientMsg :=
    { cmsg_id := cmsg, base_msg := base1, mid := base.source_mid, direction := .md_in,
      state := st, dup := false,
      qos := if base.qos > c1.max_qos then c1.max_qos else base.qos,
      retain := base.retain, subscription_identifier := 0 }
  let c2 :=
    if st = .ms_queued then
      { c1 with msgs_in :=
          addToQueuedStats { c1.msgs_in with queued := c1.msgs_in.queued ++ [msg] } msg }
    else
      { c1 with msgs_in :=
          addToInflightStats { c1.msgs_in with inflight := c1.msgs_in.inflight ++ [msg] } msg }
  let c3 := if base1.qos > 0 then decrementReceiveQuota c2 else c2
  ⟨rc, c3, base1, 0, false⟩

/-- `db__message_insert_incoming` (called for QoS 2 messages).  The null
context is handled by `insertIncomingOpt`. -/
def insertIncoming (env : Env) (c : Context) (cmsg_id : Nat) (base : BaseMsg)
    (persist : Bool) : InsertRes :=
  match c.id with
  | none => ⟨.ok, c, base, 0, false⟩
  | some _ =>
    if readyForFlight env c .md_in base.qos then
      insertIncomingAdmit c cmsg_id base .wait_for_pubrel .ok
    else if base.qos ≠ 0 ∧ readyForQueue env c.connected base.qos c.msgs_in then
      insertIncomingAdmit c cmsg_id base .ms_queued .rc2
    else
      ⟨.rc2,
        { c with
          is_dropping := true
          stats := { c.stats with messages_dropped := c.stats.messages_dropped + 1 } },
        base, 1, ¬c.is_dropping⟩

/-- `db__message_insert_incoming` including its `if(!context)` guard. -/
def insertIncomingOpt (env : Env) (oc : Option Context) (cmsg_id : Nat) (base : BaseMsg)
    (persist : Bool) : Rc × Option Context × BaseMsg :=
  match oc with
  | none => (.inval, none, base)
  | some c =>
      let r := insertIncoming env c cmsg_id base persist
      (r.rc, some r.ctx, r.base)

/-- The offline early-return block of `db__message_insert_outgoing` (a
disconnected client, QoS 0 without `queue_qos0_messages` unless a lazy
bridge, or a bridge with `clean_start_local`). -/
def outgoingOfflineReject (env : Env) (c : Context) (qos : Nat) : Bool :=
  !c.connected &&
    (((qos == 0) && !env.cfg.queue_qos0_messages &&
        (match c.bridge with
         | none => true
         | some b => !b.start_type_lazy)) ||
      (match c.bridge with
       | none => false
       | some b => b.clean_start_local))

/-- The `DL_APPEND` plus `db__msg_add_to_*_stats` pair for a freshly admitted
outgoing message: queued when its state is `mosq_ms_queued`, inflight
otherwise. -/
def appendMsgOut (c : Context) (msg : ClientMsg) (st : MsgState) : Context :=
  if st = .ms_queued then
    { c with msgs_out :=
        addToQueuedStats { c.msgs_out with queued := c.msgs_out.queued ++ [msg] } msg }
  else
    { c with msgs_out :=
        addToInflightStats { c.msgs_out with inflight := c.msgs_out.inflight ++ [msg] } msg }

/-- The `WITH_BRIDGE` lazy-reconnect marking of `db__message_insert_outgoing`. -/
def bridgeLazyFlag (c : Context) : Context :=
  if (match c.bridge with
      | none => false
      | some b => b.start_type_lazy) = true ∧ ¬c.connected ∧
      (match c.bridge with
       | none => (0 : Int)
       | some b => b.threshold) ≤ c.msgs_out.inflight_count + c.msgs_out.queued_count then
    { c with bridge := c.bridge.map (fun b => { b with lazy_reconnect := true }) }
  else c

/-- The `if(update)` tail of `db__message_insert_outgoing`: drive
`db__message_write_inflight_out_latest` then `db__message_write_queued_out`. -/
def insertOutgoingUpdate (env : Env) (c : Context) (base2 : BaseMsg) : InsertRes :=
  if (writeInflightOutLatest env c).1 ≠ .ok then
    ⟨(writeInflightOutLatest env c).1, (writeInflightOutLatest env c).2, base2, 0, false⟩
  else
    ⟨(writeQueuedOut env (writeInflightOutLatest env c).2).1,
      (writeQueuedOut env (writeInflightOutLatest env c).2).2, base2, 0, false⟩

/-- The allocation-and-append tail of `db__message_insert_outgoing`
(allocation, `realloc` of `dest_ids` and `strdup` are modelled as
succeeding). -/
def insertOutgoingAdmit (env : Env) (c : Context) (cid : String)
    (cmsg_id mid qos : Nat) (retain : Bool) (base : BaseMsg) (subid : Nat)
    (update : Bool) (st : MsgState) (rc0 : Rc) : InsertRes :=
  let cmsg := if cmsg_id ≠ 0 then cmsg_id else c.last_cmsg_id + 1
  let c1 := if cmsg_id ≠ 0 then c else { c with last_cmsg_id := c.last_cmsg_id + 1 }
  let base1 := { base with ref_count := base.ref_count + 1 }
  let msg : ClientMsg :=
    { cmsg_id := cmsg, base_msg := base1, mid := mid, direction := .md_out,
      state := st, dup := false,
      qos := if qos > c1.max_qos then c1.max_qos else qos,
      retain := retain, subscription_identifier := subid }
  let c2 := appendMsgOut c1 msg st
  let base2 :=
    if env.cfg.allow_duplicate_messages = false ∧ retain = false then
      { base1 with dest_ids := base1.dest_ids ++ [cid] }
    else base1
  let c3 := bridgeLazyFlag c2
  let c4 := if msg.qos > 0 ∧ st ≠ .ms_queued then decrementSendQuota c3 else c3
  if update then insertOutgoingUpdate env c4 base2
  else ⟨rc0, c4, base2, 0, false⟩

/-- `db__message_insert_outgoing`.  The null context is handled by
`insertOutgoingOpt`. -/
def insertOutgoing (env : Env) (c : Context) (cmsg_id mid qos : Nat) (retain : Bool)
    (base : BaseMsg) (subid : Nat) (update persist : Bool) : InsertRes :=
  match c.id with
  | none => ⟨.ok, c, base, 0, false⟩
  | some cid =>
    let c := { c with stats := { c.stats with messages_sent := c.stats.messages_sent + 1 } }
    if c.protocol_v5 = false ∧ env.cfg.allow_duplicate_messages = false ∧
        retain = false ∧ base.dest_ids.contains cid then
      ⟨.ok, c, base, 0, false⟩
    else if outgoingOfflineReject env c qos then
      ⟨.rc2, c, base, 0, false⟩
    else if c.connected then
      if readyForFlight env c .md_out qos then
        insertOutgoingAdmit env c cid cmsg_id mid qos retain base subid update
          (pubStateFor qos .ms_invalid) .ok
      else if qos ≠ 0 ∧ readyForQueue env c.connected qos c.msgs_out then
        insertOutgoingAdmit env c cid cmsg_id mid qos retain base subid update .ms_queued .rc2
      else
        ⟨.rc2, { c with is_dropping := true }, base, 1, ¬c.is_dropping⟩
    else
      if readyForQueue env c.connected qos c.msgs_out then
        insertOutgoingAdmit env c cid cmsg_id mid qos retain base subid update .ms_queued .ok
      else
        ⟨.rc2, { c with is_dropping := true }, base, 1, ¬c.is_dropping⟩

/-- `db__message_insert_outgoing` including its `if(!context)` guard. -/
def insertOutgoingOpt (env : Env) (oc : Option Context) (cmsg_id mid qos : Nat)
    (retain : Bool) (base : BaseMsg) (subid : Nat) (update persist : Bool) :
    Rc × Option Context × BaseMsg :=
  match oc with
  | none => (.inval, none, base)
  | some c =>
      let r := insertOutgoing env c cmsg_id mid qos retain base subid update persist
      (r.rc, some r.ctx, r.base)

/-- `MOSQ_UUID_EPOCH`. -/
def uuidEpoch : Nat := 1637168273

/-- The id composition of `db__new_msg_id`: 10-bit node id, 31-bit seconds
since the epoch, 23-bit fractional seconds (the top 23 of the low 30 bits of
the nanosecond count).  `sec` is modelled as a wall-clock second count at or
after the epoch (`time_t` arithmetic below the epoch is out of the modelled
range). -/
def composeMsgId (nodeShifted sec nsec : Nat) : Nat :=
  nodeShifted ||| ((((sec - uuidEpoch) &&& 0x7FFFFFFF) <<< 23)) ||| ((nsec &&& 0x7FFFFF80) >>> 7)

/-- `db__new_msg_id`: compose the id, then increment it past `db.last_db_id`
(`while(id <= db.last_db_id) id++;`) and return it; the caller stores it back
as the new `last_db_id`. -/
def newMsgId (nodeShifted last sec nsec : Nat) : Nat :=
  let id := composeMsgId nodeShifted sec nsec
  if id ≤ last then last + 1 else id

/-- Run a sequence of `db__new_msg_id` calls from an initial `last_db_id`,
feeding each call its own clock reading; returns the ids issued, in order. -/
def runMsgIds (nodeShifted : Nat) : Nat → List (Nat × Nat) → List Nat
  | _, [] => []
  | last, t :: ts =>
      let id := newMsgId nodeShifted last t.1 t.2
      id :: runMsgIds nodeShifted id ts

/-- The public operations of the message store, as invoked by callers of
database.c; oracle answers for the external collaborators come from the
`Env`. -/
inductive Op
  | insertOut (cmsg_id mid qos : Nat) (retain : Bool) (base : BaseMsg) (subid : Nat)
      (update persist : Bool)
  | insertIn (cmsg_id : Nat) (base : BaseMsg) (persist : Bool)
  | deleteOut (mid : Nat) (expect : MsgState) (qos : Nat)
  | updateOut (mid : Nat) (st : MsgState) (qos : Nat)
  | removeIn (mid : Nat)
  | releaseIn (mid : Nat)
  | dequeueFirst (dir : Direction)
  | reconnectResetOp
  | expireAll

/-- Apply one public operation to a session, discarding its return code. -/
def applyOp (env : Env) (c : Context) : Op → Context
  | .insertOut cmsg_id mid qos retain base subid update persist =>
      (insertOutgoing env c cmsg_id mid qos retain base subid update persist).ctx
  | .insertIn cmsg_id base persist => (insertIncoming env c cmsg_id base persist).ctx
  | .deleteOut mid expect qos => (deleteOutgoing env c mid expect qos).2
  | .updateOut mid st qos => (updateOutgoing c mid st qos).2
  | .removeIn mid => (removeIncoming c mid).2
  | .releaseIn mid => (releaseIncoming env c mid).2
  | .dequeueFirst .md_out => { c with msgs_out := dequeueFirstD c.msgs_out }
  | .dequeueFirst .md_in => { c with msgs_in := dequeueFirstD c.msgs_in }
  | .reconnectResetOp => reconnectReset env c
  | .expireAll => expireAllMessages env c

/-- Apply a sequence of public operations. -/
def runOps (env : Env) (c : Context) : List Op → Context
  | [] => c
  | op :: ops => runOps env (applyOp env c op) ops

/-- The byte-accounting invariant of one direction's message data: the stored
byte counters equal the payload sums over the corresponding lists. -/
def bytesInv (d : MsgData) : Prop :=
  d.inflight_bytes = sumP d.inflight ∧ d.inflight_bytes12 = sumP12 d.inflight ∧
  d.queued_bytes = sumP d.queued ∧ d.queued_bytes12 = sumP12 d.queued

instance (d : MsgData) : Decidable (bytesInv d) := by
  unfold bytesInv
  exact inferInstance

/-- The byte-accounting invariant for both directions of a session. -/
def ctxInv (c : Context) : Prop := bytesInv c.msgs_out ∧ bytesInv c.msgs_in

instance (c : Context) : Decidable (ctxInv c) := by
  unfold ctxInv
  exact inferInstance

/-- Sample configuration with no limits set. -/
def sCfg : Config := ⟨0, 0, 0, true, false, true⟩

/-- Sample environment: no limits, wall clock at 100, every send and every
routing call succeeds. -/
def sEnv : Env := ⟨sCfg, 100, fun _ => .success, fun _ => .success, fun _ => .success⟩

/-- Empty per-direction message data. -/
def sEmptyData : MsgData := ⟨[], [], 0, 0, 0, 0, 0, 0, 0, 0, 0, 0⟩

/-- A connected, active session with empty queues. -/
def sCtx : Context :=
  ⟨some "c1", sEmptyData, sEmptyData, false, ⟨0, 0⟩, 2, false, true, true, 0, 0, none⟩

/-- A QoS 1 base message with payload length 5. -/
def sBase1 : BaseMsg := ⟨1, some "t", 5, 1, false, 7, 0, 0, []⟩

/-- A QoS 2 base message with payload length 3. -/
def sBase2 : BaseMsg := ⟨2, some "u", 3, 2, false, 8, 0, 0, []⟩

/-- Concrete operation sequence exercising every public operation. -/
def c1Ops : List Op :=
  [.insertOut 0 10 1 false sBase1 0 true false, .insertIn 0 sBase2 false,
   .deleteOut 10 .wait_for_puback 1, .updateOut 10 .wait_for_puback 1, .releaseIn 8,
   .removeIn 8, .dequeueFirst .md_out, .reconnectResetOp, .expireAll]

/-- Config for the C2 scenario: `max_queued_messages = 1`, other limits off. -/
def c2Cfg : Config := ⟨0, 1, 0, true, false, true⟩

/-- Environment for the C2 scenario. -/
def c2Env : Env := ⟨c2Cfg, 100, fun _ => .success, fun _ => .success, fun _ => .success⟩

/-- An outgoing QoS 1 message inflight (awaiting PUBACK). -/
def c2Msg1 : ClientMsg := ⟨1, sBase1, 1, .md_out, .wait_for_puback, 1, false, false, 0⟩

/-- A queued outgoing QoS 1 message. -/
def c2MsgQ1 : ClientMsg := ⟨2, sBase1, 2, .md_out, .ms_queued, 1, false, false, 0⟩

/-- A second queued outgoing QoS 1 message. -/
def c2MsgQ2 : ClientMsg := ⟨3, sBase1, 3, .md_out, .ms_queued, 1, false, false, 0⟩

/-- Outgoing message data with a full window (`inflight_maximum = 1`, quota
exhausted) and a full queue. -/
def c2Data : MsgData := ⟨[c2Msg1], [c2MsgQ1, c2MsgQ2], 1, 0, 1, 1, 5, 5, 2, 2, 10, 10⟩

/-- A connected session whose outgoing direction is saturated. -/
def c2Ctx : Context :=
  ⟨some "c1", sEmptyData, c2Data, false, ⟨0, 0⟩, 2, false, true, true, 3, 0, none⟩

/-- The same session saturated in the incoming direction as well. -/
def c2CtxIn : Context := { c2Ctx with msgs_in := c2Data }

/-- An incoming QoS 2 message inflight with mid 8. -/
def c3MsgIn : ClientMsg := ⟨1, sBase2, 8, .md_in, .wait_for_pubrel, 2, false, false, 0⟩

/-- A queued incoming QoS 2 message. -/
def c3MsgQ : ClientMsg := ⟨2, sBase2, 9, .md_in, .ms_queued, 2, false, false, 0⟩

/-- A session with one incoming QoS 2 message inflight and one queued, with no
limits configured, so `db__ready_for_flight` is true throughout. -/
def c3Ctx : Context :=
  ⟨some "c1", ⟨[c3MsgIn], [c3MsgQ], 0, 0, 1, 1, 3, 3, 1, 1, 3, 3⟩, sEmptyData, false,
    ⟨0, 0⟩, 2, false, true, true, 2, 0, none⟩

/-- A queued outgoing QoS 1 message for the C4 scenario. -/
def c4MsgQ : ClientMsg := ⟨1, sBase1, 11, .md_out, .ms_queued, 1, false, false, 0⟩

/-- A session with `inflight_maximum = 2`, an empty outgoing inflight list and
one queued QoS 1 message. -/
def c4Ctx : Context :=
  ⟨some "c1", sEmptyData, ⟨[], [c4MsgQ], 2, 2, 0, 0, 0, 0, 1, 1, 5, 5⟩, false,
    ⟨0, 0⟩, 2, false, true, true, 1, 0, none⟩

/-- An outgoing QoS 2 message inflight with mid 5, awaiting PUBREC. -/
def c7Msg : ClientMsg := ⟨1, sBase2, 5, .md_out, .wait_for_pubrec, 2, false, false, 0⟩

/-- A session with that message inflight. -/
def c7Ctx : Context :=
  ⟨some "c1", sEmptyData, ⟨[c7Msg], [], 0, 0, 1, 1, 3, 3, 0, 0, 0, 0⟩, false,
    ⟨0, 0⟩, 2, false, true, true, 1, 0, none⟩

/-- An outgoing QoS 1 message whose base message expired at second 50. -/
def c8Msg : ClientMsg :=
  ⟨4, { sBase1 with message_expiry_time := 50 }, 12, .md_out, .publish_qos1, 1, false, false, 0⟩

/-- A session whose client id is null (being torn down). -/
def sCtxNoId : Context := { sCtx with id := none }

theorem sumP_nil : sumP [] = 0 := rfl

theorem sumP12_nil : sumP12 [] = 0 := rfl

theorem sumP_cons (m : ClientMsg) (l : List ClientMsg) : sumP (m :: l) = plen m + sumP l := by
  simp [sumP]

theorem sumP12_cons (m : ClientMsg) (l : List ClientMsg) :
    sumP12 (m :: l) = plen12 m + sumP12 l := by
  simp [sumP12]

theorem sumP_append (l1 l2 : List ClientMsg) : sumP (l1 ++ l2) = sumP l1 + sumP l2 := by
  simp [sumP]

theorem sumP12_append (l1 l2 : List ClientMsg) : sumP12 (l1 ++ l2) = sumP12 l1 + sumP12 l2 := by
  simp [sumP12]

theorem addToInflightStats_bytes12 (d : MsgData) (m : ClientMsg) :
    (addToInflightStats d m).inflight_bytes12 = d.inflight_bytes12 + plen12 m := by
  unfold addToInflightStats plen12
  by_cases h : m.qos = 0 <;> simp [h]

theorem removeFromInflightStats_bytes12 (d : MsgData) (m : ClientMsg) :
    (removeFromInflightStats d m).inflight_bytes12 = d.inflight_bytes12 - plen12 m := by
  unfold removeFromInflightStats plen12
  by_cases h : m.qos = 0 <;> simp [h]

theorem addToQueuedStats_bytes12 (d : MsgData) (m : ClientMsg) :
    (addToQueuedStats d m).queued_bytes12 = d.queued_bytes12 + plen12 m := by
  unfold addToQueuedStats plen12
  by_cases h : m.qos = 0 <;> simp [h]

theorem removeFromQueuedStats_bytes12 (d : MsgData) (m : ClientMsg) :
    (removeFromQueuedStats d m).queued_bytes12 = d.queued_bytes12 - plen12 m := by
  unfold removeFromQueuedStats plen12
  by_cases h : m.qos = 0 <;> simp [h]

theorem dequeueFirstD_queued (d : MsgData) : (dequeueFirstD d).queued = d.queued.drop 1 := by
  unfold dequeueFirstD
  rcases h : d.queued with _ | ⟨m, rest⟩ <;>
    simp [h, addToInflightStats, removeFromQueuedStats]

theorem dequeueFirstD_fields (d : MsgData) (m : ClientMsg) (rest : List ClientMsg)
    (hq : d.queued = m :: rest) :
    (dequeueFirstD d).inflight = d.inflight ++ [m] ∧
    (dequeueFirstD d).queued = rest ∧
    (dequeueFirstD d).inflight_bytes = d.inflight_bytes + plen m ∧
    (dequeueFirstD d).inflight_bytes12 = d.inflight_bytes12 + plen12 m ∧
    (dequeueFirstD d).queued_bytes = d.queued_bytes - plen m ∧
    (dequeueFirstD d).queued_bytes12 = d.queued_bytes12 - plen12 m ∧
    (dequeueFirstD d).inflight_quota = d.inflight_quota - 1 ∧
    (dequeueFirstD d).inflight_maximum = d.inflight_maximum := by
  unfold dequeueFirstD
  rw [hq]
  refine ⟨?_, ?_, ?_, ?_, ?_, ?_, ?_, ?_⟩ <;>
    by_cases hqos : m.qos = 0 <;>
    simp [addToInflightStats, removeFromQueuedStats, plen, plen12, hqos]

theorem bytesInv_dequeueFirstD (d : MsgData) (h : bytesInv d) : bytesInv (dequeueFirstD d) := by
  obtain ⟨h1, h2, h3, h4⟩ := h
  rcases hq : d.queued with _ | ⟨m, rest⟩
  · unfold dequeueFirstD
    rw [hq]
    exact ⟨h1, h2, h3, h4⟩
  · obtain ⟨f1, f2, f3, f4, f5, f6, f7, f8⟩ := dequeueFirstD_fields d m rest hq
    rw [hq, sumP_cons] at h3
    rw [hq, sumP12_cons] at h4
    refine ⟨?_, ?_, ?_, ?_⟩
    · rw [f3, f1, sumP_append, h1]
      simp [sumP_cons, sumP_nil]
    · rw [f4, f1, sumP12_append, h2]
      simp [sumP12_cons, sumP12_nil]
    · rw [f5, f2]
      omega
    · rw [f6, f2]
      omega

theorem restoreQuota_fields (b : Bool) (d : MsgData) :
    (restoreQuota b d).inflight_bytes = d.inflight_bytes ∧
    (restoreQuota b d).inflight_bytes12 = d.inflight_bytes12 ∧
    (restoreQuota b d).queued = d.queued ∧
    (restoreQuota b d).queued_bytes = d.queued_bytes ∧
    (restoreQuota b d).queued_bytes12 = d.queued_bytes12 ∧
    (restoreQuota b d).inflight_maximum = d.inflight_maximum := by
  cases b <;> simp [restoreQuota]

theorem plen_set_state (m : ClientMsg) (st : MsgState) (dp : Bool) :
    plen { m with state := st, dup := dp } = plen m := rfl

theorem plen12_set_state (m : ClientMsg) (st : MsgState) (dp : Bool) :
    plen12 { m with state := st, dup := dp } = plen12 m := rfl

theorem writeMsgs_spec (env : Env) (l : List ClientMsg) (d : MsgData) :
    (writeMsgs env l d).2.1.inflight_bytes + sumP l
      = d.inflight_bytes + sumP (writeMsgs env l d).1 ∧
    (writeMsgs env l d).2.1.inflight_bytes12 + sumP12 l
      = d.inflight_bytes12 + sumP12 (writeMsgs env l d).1 ∧
    (writeMsgs env l d).2.1.queued = d.queued ∧
    (writeMsgs env l d).2.1.queued_bytes = d.queued_bytes ∧
    (writeMsgs env l d).2.1.queued_bytes12 = d.queued_bytes12 ∧
    (writeMsgs env l d).2.1.inflight_maximum = d.inflight_maximum := by
  induction l generalizing d with
  | nil => simp [writeMsgs, sumP_nil, sumP12_nil]
  | cons m rest ih =>
    unfold writeMsgs
    cases hact : (writeInflightOutSingle env m).act with
    | removeMsg inc =>
        simp only [hact]
        obtain ⟨q1, q2, q3, q4, q5, q6⟩ :=
          restoreQuota_fields inc (removeFromInflightStats d m)
        obtain ⟨i1, i2, i3, i4, i5, i6⟩ :=
          ih (removeFromInflightStats (restoreQuota inc d) m)
        have e2 := removeFromInflightStats_bytes12 (restoreQuota inc d) m
        -- restoreQuota and removeFromInflightStats commute (they touch
        -- disjoint fields); normalize to the composed order of the program
        have hcomm : removeFromInflightStats (restoreQuota inc d) m
            = restoreQuota inc (removeFromInflightStats d m) := by
          cases inc <;> simp [restoreQuota, removeFromInflightStats]
        rw [hcomm] at i1 i2 i3 i4 i5 i6 e2
        obtain ⟨r1, r2, r3, r4, r5, r6⟩ :=
          restoreQuota_fields inc (removeFromInflightStats d m)
        refine ⟨?_, ?_, ?_, ?_, ?_, ?_⟩
        · rw [sumP_cons]
          have : (restoreQuota inc (removeFromInflightStats d m)).inflight_bytes
              = d.inflight_bytes - plen m := by
            rw [r1]; simp [removeFromInflightStats, plen]
          omega
        · rw [sumP12_cons]
          have : (restoreQuota inc (removeFromInflightStats d m)).inflight_bytes12
              = d.inflight_bytes12 - plen12 m := by
            rw [r2, removeFromInflightStats_bytes12]
          omega
        · rw [i3, q3]; simp [removeFromInflightStats]
        · rw [i4, q4]; simp [removeFromInflightStats]
        · rw [i5, q5]; simp [removeFromInflightStats]
        · rw [i6, q6]; simp [removeFromInflightStats]
    | setState st dp =>
        simp only [hact]
        obtain ⟨i1, i2, i3, i4, i5, i6⟩ := ih d
        refine ⟨?_, ?_, i3, i4, i5, i6⟩
        · simp only [sumP_cons]
          have hp : plen { m with state := st, dup := dp } = plen m := rfl
          rw [hp]
          omega
        · simp only [sumP12_cons]
          have hp : plen12 { m with state := st, dup := dp } = plen12 m := rfl
          rw [hp]
          omega
    | keep =>
        simp only [hact]
        obtain ⟨i1, i2, i3, i4, i5, i6⟩ := ih d
        refine ⟨?_, ?_, i3, i4, i5, i6⟩
        · simp only [sumP_cons]
          omega
        · simp only [sumP12_cons]
          omega
    | propagate rc =>
        simp [hact]

theorem writeInflightOutAll_ctx (env : Env) (c : Context) :
    ((writeInflightOutAll env c).2).msgs_in = c.msgs_in ∧
    ((writeInflightOutAll env c).2).stats = c.stats ∧
    ((writeInflightOutAll env c).2).is_dropping = c.is_dropping := by
  unfold writeInflightOutAll
  split <;> simp

theorem bytesInv_writeInflightOutAll (env : Env) (c : Context) (h : bytesInv c.msgs_out) :
    bytesInv ((writeInflightOutAll env c).2).msgs_out := by
  obtain ⟨h1, h2, h3, h4⟩ := h
  unfold writeInflightOutAll
  split
  · exact ⟨h1, h2, h3, h4⟩
  · show bytesInv { (writeMsgs env c.msgs_out.inflight c.msgs_out).2.1 with
      inflight := (writeMsgs env c.msgs_out.inflight c.msgs_out).1 }
    obtain ⟨w1, w2, w3, w4, w5, w6⟩ :=
      writeMsgs_spec env c.msgs_out.inflight c.msgs_out
    refine ⟨?_, ?_, ?_, ?_⟩ <;> dsimp only
    · omega
    · omega
    · rw [w4, w3, h3]
    · rw [w5, w3, h4]

theorem writeInflightOutLatest_ctx (env : Env) (c : Context) :
    ((writeInflightOutLatest env c).2).msgs_in = c.msgs_in ∧
    ((writeInflightOutLatest env c).2).stats = c.stats ∧
    ((writeInflightOutLatest env c).2).is_dropping = c.is_dropping ∧
    ((writeInflightOutLatest env c).2).id = c.id := by
  unfold writeInflightOutLatest
  split <;> simp

theorem bytesInv_writeInflightOutLatest (env : Env) (c : Context) (h : bytesInv c.msgs_out) :
    bytesInv ((writeInflightOutLatest env c).2).msgs_out := by
  obtain ⟨h1, h2, h3, h4⟩ := h
  unfold writeInflightOutLatest
  split
  · exact ⟨h1, h2, h3, h4⟩
  · show bytesInv
      { (writeMsgs env (c.msgs_out.inflight.drop (latestStartIdx c.msgs_out.inflight)) c.msgs_out).2.1 with
        inflight := c.msgs_out.inflight.take (latestStartIdx c.msgs_out.inflight) ++
          (writeMsgs env (c.msgs_out.inflight.drop (latestStartIdx c.msgs_out.inflight)) c.msgs_out).1 }
    obtain ⟨w1, w2, w3, w4, w5, w6⟩ :=
      writeMsgs_spec env (c.msgs_out.inflight.drop (latestStartIdx c.msgs_out.inflight)) c.msgs_out
    have hsplit : sumP c.msgs_out.inflight
        = sumP (c.msgs_out.inflight.take (latestStartIdx c.msgs_out.inflight))
          + sumP (c.msgs_out.inflight.drop (latestStartIdx c.msgs_out.inflight)) := by
      rw [← sumP_append, List.take_append_drop]
    have hsplit12 : sumP12 c.msgs_out.inflight
        = sumP12 (c.msgs_out.inflight.take (latestStartIdx c.msgs_out.inflight))
          + sumP12 (c.msgs_out.inflight.drop (latestStartIdx c.msgs_out.inflight)) := by
      rw [← sumP12_append, List.take_append_drop]
    refine ⟨?_, ?_, ?_, ?_⟩ <;> dsimp only
    · rw [sumP_append]
      omega
    · rw [sumP12_append]
      omega
    · rw [w4, w3, h3]
    · rw [w5, w3, h4]

theorem promoteOutAux_queued_eq (cfg : Config) (opc : Nat) (l : List ClientMsg) (d : MsgData)
    (hq : d.queued = l) : bytesInv d → bytesInv (promoteOutAux cfg opc l d) := by
  induction l generalizing d with
  | nil =>
      intro h
      simpa [promoteOutAux] using h
  | cons m rest ih =>
      intro h
      obtain ⟨h1, h2, h3, h4⟩ := h
      unfold promoteOutAux
      split
      · apply ih
        · rw [dequeueFirstD_queued]
          rfl
        · apply bytesInv_dequeueFirstD
          refine ⟨h1, h2, ?_, ?_⟩
          · rw [hq] at h3
            rw [h3, sumP_cons, sumP_cons]
            rfl
          · rw [hq] at h4
            rw [h4, sumP12_cons, sumP12_cons]
            rfl
      · exact ⟨h1, h2, h3, h4⟩

theorem bytesInv_promoteOut (cfg : Config) (opc : Nat) (d : MsgData) (h : bytesInv d) :
    bytesInv (promoteOutAux cfg opc d.queued d) :=
  promoteOutAux_queued_eq cfg opc d.queued d rfl h

theorem writeQueuedOut_ctx (env : Env) (c : Context) :
    ((writeQueuedOut env c).2).msgs_in = c.msgs_in ∧
    ((writeQueuedOut env c).2).stats = c.stats ∧
    ((writeQueuedOut env c).2).is_dropping = c.is_dropping ∧
    ((writeQueuedOut env c).2).id = c.id := by
  unfold writeQueuedOut
  split <;> simp

theorem bytesInv_writeQueuedOut (env : Env) (c : Context) (h : bytesInv c.msgs_out) :
    bytesInv ((writeQueuedOut env c).2).msgs_out := by
  unfold writeQueuedOut
  split
  · exact h
  · exact bytesInv_promoteOut env.cfg c.out_packet_count c.msgs_out h

theorem delScanInflight_spec (mid : Nat) (expect : MsgState) (qos : Nat)
    (l : List ClientMsg) (d : MsgData) (kept : List ClientMsg) (d' : MsgData)
    (h : delScanInflight mid expect qos l d = .removedOk kept d') :
    d'.inflight_bytes + sumP l = d.inflight_bytes + sumP kept ∧
    d'.inflight_bytes12 + sumP12 l = d.inflight_bytes12 + sumP12 kept ∧
    d'.queued = d.queued ∧ d'.queued_bytes = d.queued_bytes ∧
    d'.queued_bytes12 = d.queued_bytes12 := by
  induction l generalizing kept d' with
  | nil => exact absurd h (by simp [delScanInflight])
  | cons m rest ih =>
    unfold delScanInflight at h
    by_cases hm : m.mid = mid
    · rw [if_pos hm] at h
      split at h
      · exact absurd h (by simp)
      · split at h
        · exact absurd h (by simp)
        · cases h
          refine ⟨?_, ?_, ?_, ?_, ?_⟩
          · simp only [sumP_cons]
            simp [removeFromInflightStats, plen]
            omega
          · rw [removeFromInflightStats_bytes12]
            simp only [sumP12_cons]
            omega
          · simp [removeFromInflightStats]
          · simp [removeFromInflightStats]
          · simp [removeFromInflightStats]
    · rw [if_neg hm] at h
      cases hrec : delScanInflight mid expect qos rest d with
      | removedOk k2 d2 =>
          rw [hrec] at h
          cases h
          obtain ⟨i1, i2, i3, i4, i5⟩ := ih k2 d' hrec
          refine ⟨?_, ?_, i3, i4, i5⟩ <;>
            simp only [sumP_cons, sumP12_cons] <;> omega
      | protoErr =>
          rw [hrec] at h
          exact absurd h (by simp)
      | noMatch =>
          rw [hrec] at h
          exact absurd h (by simp)

theorem delScanQueued_spec (mid : Nat) (expect : MsgState) (qos : Nat)
    (l : List ClientMsg) (d : MsgData) (kept : List ClientMsg) (d' : MsgData)
    (h : delScanQueued mid expect qos l d = .removedOk kept d') :
    d'.queued_bytes + sumP l = d.queued_bytes + sumP kept ∧
    d'.queued_bytes12 + sumP12 l = d.queued_bytes12 + sumP12 kept ∧
    d'.inflight = d.inflight ∧ d'.inflight_bytes = d.inflight_bytes ∧
    d'.inflight_bytes12 = d.inflight_bytes12 := by
  induction l generalizing kept d' with
  | nil => exact absurd h (by simp [delScanQueued])
  | cons m rest ih =>
    unfold delScanQueued at h
    by_cases hm : m.mid = mid
    · rw [if_pos hm] at h
      split at h
      · exact absurd h (by simp)
      · split at h
        · exact absurd h (by simp)
        · cases h
          refine ⟨?_, ?_, ?_, ?_, ?_⟩
          · simp only [sumP_cons]
            simp [removeFromQueuedStats, plen]
            omega
          · rw [removeFromQueuedStats_bytes12]
            simp only [sumP12_cons]
            omega
          · simp [removeFromQueuedStats]
          · simp [removeFromQueuedStats]
          · simp [removeFromQueuedStats]
    · rw [if_neg hm] at h
      cases hrec : delScanQueued mid expect qos rest d with
      | removedOk k2 d2 =>
          rw [hrec] at h
          cases h
          obtain ⟨i1, i2, i3, i4, i5⟩ := ih k2 d' hrec
          refine ⟨?_, ?_, i3, i4, i5⟩ <;>
            simp only [sumP_cons, sumP12_cons] <;> omega
      | protoErr =>
          rw [hrec] at h
          exact absurd h (by simp)
      | noMatch =>
          rw [hrec] at h
          exact absurd h (by simp)

theorem ctxInv_delOutFinish (env : Env) (c : Context) (h : ctxInv c) :
    ctxInv (delOutFinish env c).2 := by
  obtain ⟨ho, hi⟩ := h
  unfold delOutFinish
  constructor
  · exact bytesInv_writeInflightOutLatest env _ (bytesInv_promoteOut env.cfg c.out_packet_count c.msgs_out ho)
  · rw [(writeInflightOutLatest_ctx env _).1]
    exact hi

theorem ctxInv_deleteOutgoing (env : Env) (c : Context) (mid : Nat) (expect : MsgState)
    (qos : Nat) (h : ctxInv c) : ctxInv (deleteOutgoing env c mid expect qos).2 := by
  obtain ⟨⟨h1, h2, h3, h4⟩, hi⟩ := h
  unfold deleteOutgoing
  cases hs : delScanInflight mid expect qos c.msgs_out.inflight c.msgs_out with
  | removedOk kept d' =>
      obtain ⟨s1, s2, s3, s4, s5⟩ := delScanInflight_spec mid expect qos _ _ _ _ hs
      apply ctxInv_delOutFinish
      refine ⟨⟨?_, ?_, ?_, ?_⟩, hi⟩ <;> dsimp only
      · omega
      · omega
      · rw [s4, s3, h3]
      · rw [s5, s3, h4]
  | protoErr => exact ⟨⟨h1, h2, h3, h4⟩, hi⟩
  | noMatch =>
      cases hs2 : delScanQueued mid expect qos c.msgs_out.queued c.msgs_out with
      | removedOk kept d' =>
          obtain ⟨s1, s2, s3, s4, s5⟩ := delScanQueued_spec mid expect qos _ _ _ _ hs2
          apply ctxInv_delOutFinish
          refine ⟨⟨?_, ?_, ?_, ?_⟩, hi⟩ <;> dsimp only
          · rw [s4, s3, h1]
          · rw [s5, s3, h2]
          · omega
          · omega
      | protoErr => exact ⟨⟨h1, h2, h3, h4⟩, hi⟩
      | noMatch => exact ctxInv_delOutFinish env c ⟨⟨h1, h2, h3, h4⟩, hi⟩

theorem updOutAux_sums (mid : Nat) (st : MsgState) (qos : Nat) (l : List ClientMsg) :
    sumP (updOutAux mid st qos l).2 = sumP l ∧
    sumP12 (updOutAux mid st qos l).2 = sumP12 l := by
  induction l with
  | nil => simp [updOutAux]
  | cons m rest ih =>
    unfold updOutAux
    split
    · split
      · simp
      · refine ⟨?_, ?_⟩ <;> simp only [sumP_cons, sumP12_cons]
        · have hp : plen { m with state := st } = plen m := rfl
          rw [hp]
        · have hp : plen12 { m with state := st } = plen12 m := rfl
          rw [hp]
    · refine ⟨?_, ?_⟩ <;> simp only [sumP_cons, sumP12_cons]
      · rw [ih.1]
      · rw [ih.2]

theorem ctxInv_updateOutgoing (c : Context) (mid : Nat) (st : MsgState) (qos : Nat)
    (h : ctxInv c) : ctxInv (updateOutgoing c mid st qos).2 := by
  obtain ⟨⟨h1, h2, h3, h4⟩, hi⟩ := h
  obtain ⟨u1, u2⟩ := updOutAux_sums mid st qos c.msgs_out.inflight
  exact ⟨⟨by dsimp only [updateOutgoing]; rw [u1, h1],
          by dsimp only [updateOutgoing]; rw [u2, h2], h3, h4⟩, hi⟩

theorem remInAux_spec (mid : Nat) (l : List ClientMsg) (d : MsgData) :
    (remInAux mid l d).2.2.inflight_bytes + sumP l
      = d.inflight_bytes + sumP (remInAux mid l d).2.1 ∧
    (remInAux mid l d).2.2.inflight_bytes12 + sumP12 l
      = d.inflight_bytes12 + sumP12 (remInAux mid l d).2.1 ∧
    (remInAux mid l d).2.2.queued = d.queued ∧
    (remInAux mid l d).2.2.queued_bytes = d.queued_bytes ∧
    (remInAux mid l d).2.2.queued_bytes12 = d.queued_bytes12 := by
  induction l generalizing d with
  | nil => simp [remInAux]
  | cons m rest ih =>
    unfold remInAux
    split
    · split
      · simp
      · refine ⟨?_, ?_, ?_, ?_, ?_⟩ <;> dsimp only
        · simp only [sumP_cons]
          simp [removeFromInflightStats, plen]
          omega
        · rw [removeFromInflightStats_bytes12]
          simp only [sumP12_cons]
          omega
        · simp [removeFromInflightStats]
        · simp [removeFromInflightStats]
        · simp [removeFromInflightStats]
    · obtain ⟨i1, i2, i3, i4, i5⟩ := ih d
      refine ⟨?_, ?_, i3, i4, i5⟩ <;>
        simp only [sumP_cons, sumP12_cons] <;> omega

theorem ctxInv_removeIncoming (c : Context) (mid : Nat) (h : ctxInv c) :
    ctxInv (removeIncoming c mid).2 := by
  obtain ⟨ho, ⟨h1, h2, h3, h4⟩⟩ := h
  obtain ⟨s1, s2, s3, s4, s5⟩ := remInAux_spec mid c.msgs_in.inflight c.msgs_in
  refine ⟨ho, ⟨?_, ?_, ?_, ?_⟩⟩ <;> dsimp only [removeIncoming]
  · omega
  · omega
  · rw [s4, s3, h3]
  · rw [s5, s3, h4]

theorem removeFromInflightStats_queued (d : MsgData) (m : ClientMsg) :
    (removeFromInflightStats d m).queued = d.queued ∧
    (removeFromInflightStats d m).queued_bytes = d.queued_bytes ∧
    (removeFromInflightStats d m).queued_bytes12 = d.queued_bytes12 ∧
    (removeFromInflightStats d m).inflight_bytes = d.inflight_bytes - plen m := by
  refine ⟨rfl, rfl, rfl, ?_⟩
  simp [removeFromInflightStats, plen]

theorem relScanAux_spec (env : Env) (mid : Nat) (l : List ClientMsg) (d : MsgData) :
    (relScanAux env mid l d).2.1.inflight_bytes + sumP l
      = d.inflight_bytes + sumP (relScanAux env mid l d).1 ∧
    (relScanAux env mid l d).2.1.inflight_bytes12 + sumP12 l
      = d.inflight_bytes12 + sumP12 (relScanAux env mid l d).1 ∧
    (relScanAux env mid l d).2.1.queued = d.queued ∧
    (relScanAux env mid l d).2.1.queued_bytes = d.queued_bytes ∧
    (relScanAux env mid l d).2.1.queued_bytes12 = d.queued_bytes12 := by
  induction l generalizing d with
  | nil => simp [relScanAux]
  | cons m rest ih =>
    unfold relScanAux
    by_cases hm : m.mid = mid
    · rw [if_pos hm]
      by_cases hq2 : m.base_msg.qos ≠ 2
      · rw [if_pos hq2]
        exact ⟨rfl, rfl, rfl, rfl, rfl⟩
      · rw [if_neg hq2]
        by_cases ht : m.base_msg.topic = none
        · rw [if_pos ht]
          obtain ⟨i1, i2, i3, i4, i5⟩ := ih (removeFromInflightStats d m)
          obtain ⟨q1, q2, q3, q4⟩ := removeFromInflightStats_queued d m
          have e12 := removeFromInflightStats_bytes12 d m
          refine ⟨?_, ?_, ?_, ?_, ?_⟩ <;> dsimp only
          · rw [sumP_cons]
            omega
          · rw [sumP12_cons]
            omega
          · rw [i3, q1]
          · rw [i4, q2]
          · rw [i5, q3]
        · rw [if_neg ht]
          cases hs : env.subq m.cmsg_id with
          | success =>
              obtain ⟨i1, i2, i3, i4, i5⟩ := ih (removeFromInflightStats d m)
              obtain ⟨q1, q2, q3, q4⟩ := removeFromInflightStats_queued d m
              have e12 := removeFromInflightStats_bytes12 d m
              refine ⟨?_, ?_, ?_, ?_, ?_⟩ <;> dsimp only
              · rw [sumP_cons]
                omega
              · rw [sumP12_cons]
                omega
              · rw [i3, q1]
              · rw [i4, q2]
              · rw [i5, q3]
          | noSubscribers =>
              obtain ⟨i1, i2, i3, i4, i5⟩ := ih (removeFromInflightStats d m)
              obtain ⟨q1, q2, q3, q4⟩ := removeFromInflightStats_queued d m
              have e12 := removeFromInflightStats_bytes12 d m
              refine ⟨?_, ?_, ?_, ?_, ?_⟩ <;> dsimp only
              · rw [sumP_cons]
                omega
              · rw [sumP12_cons]
                omega
              · rw [i3, q1]
              · rw [i4, q2]
              · rw [i5, q3]
          | failure =>
              exact ⟨rfl, rfl, rfl, rfl, rfl⟩
    · rw [if_neg hm]
      obtain ⟨i1, i2, i3, i4, i5⟩ := ih d
      refine ⟨?_, ?_, i3, i4, i5⟩ <;> dsimp only
      · rw [sumP_cons, sumP_cons]
        omega
      · rw [sumP12_cons, sumP12_cons]
        omega

theorem bytesInv_relIncPromoteAux (cfg : Config) (opc : Nat) (rest : List ClientMsg) :
    ∀ (visited : List ClientMsg) (d : MsgData), d.queued = visited ++ rest → bytesInv d →
      bytesInv (relIncPromoteAux cfg opc visited rest d) := by
  induction rest with
  | nil =>
      intro visited d _ h
      simpa [relIncPromoteAux] using h
  | cons m rest ih =>
    intro visited d hq h
    unfold relIncPromoteAux
    split
    · exact h
    · split
      · apply ih
        · rw [dequeueFirstD_queued]
          dsimp only
          have hassoc : visited ++ { m with state := MsgState.wait_for_pubrel } :: rest
              = (visited ++ [{ m with state := MsgState.wait_for_pubrel }]) ++ rest := by
            simp
          rw [hassoc, List.drop_append_of_le_length (by simp)]
        · apply bytesInv_dequeueFirstD
          obtain ⟨h1, h2, h3, h4⟩ := h
          refine ⟨h1, h2, ?_, ?_⟩ <;> dsimp only
          · rw [h3, hq, sumP_append, sumP_append, sumP_cons, sumP_cons]
            rfl
          · rw [h4, hq, sumP12_append, sumP12_append, sumP12_cons, sumP12_cons]
            rfl
      · apply ih
        · rw [hq]
          simp
        · exact h

theorem ctxInv_releaseIncoming (env : Env) (c : Context) (mid : Nat) (h : ctxInv c) :
    ctxInv (releaseIncoming env c mid).2 := by
  obtain ⟨ho, ⟨h1, h2, h3, h4⟩⟩ := h
  obtain ⟨s1, s2, s3, s4, s5⟩ := relScanAux_spec env mid c.msgs_in.inflight c.msgs_in
  have hc1 : bytesInv { (relScanAux env mid c.msgs_in.inflight c.msgs_in).2.1 with
      inflight := (relScanAux env mid c.msgs_in.inflight c.msgs_in).1 } := by
    refine ⟨?_, ?_, ?_, ?_⟩ <;> dsimp only
    · omega
    · omega
    · rw [s4, s3, h3]
    · rw [s5, s3, h4]
  unfold releaseIncoming
  cases hm : (relScanAux env mid c.msgs_in.inflight c.msgs_in).2.2.2 with
  | some rc =>
      simp only [hm]
      exact ⟨ho, hc1⟩
  | none =>
      simp only [hm]
      refine ⟨ho, ?_⟩
      exact bytesInv_relIncPromoteAux env.cfg c.out_packet_count _ [] _ rfl hc1

theorem expireInflightAux_spec (now : Nat) (l : List ClientMsg) (d : MsgData) :
    (expireInflightAux now l d).2.inflight_bytes + sumP l
      = d.inflight_bytes + sumP (expireInflightAux now l d).1 ∧
    (expireInflightAux now l d).2.inflight_bytes12 + sumP12 l
      = d.inflight_bytes12 + sumP12 (expireInflightAux now l d).1 ∧
    (expireInflightAux now l d).2.queued = d.queued ∧
    (expireInflightAux now l d).2.queued_bytes = d.queued_bytes ∧
    (expireInflightAux now l d).2.queued_bytes12 = d.queued_bytes12 := by
  induction l generalizing d with
  | nil => simp [expireInflightAux]
  | cons m rest ih =>
    unfold expireInflightAux
    split
    · obtain ⟨i1, i2, i3, i4, i5⟩ :=
        ih (removeFromInflightStats (restoreQuota (decide (0 < m.qos)) d) m)
      obtain ⟨r1, r2, r3, r4, r5, r6⟩ := restoreQuota_fields (decide (0 < m.qos)) d
      have hb : (removeFromInflightStats (restoreQuota (decide (0 < m.qos)) d) m).inflight_bytes
          = d.inflight_bytes - plen m := by
        rw [(removeFromInflightStats_queued _ m).2.2.2, r1]
      have hb12 : (removeFromInflightStats (restoreQuota (decide (0 < m.qos)) d) m).inflight_bytes12
          = d.inflight_bytes12 - plen12 m := by
        rw [removeFromInflightStats_bytes12, r2]
      have hqf : (removeFromInflightStats (restoreQuota (decide (0 < m.qos)) d) m).queued
          = d.queued := by
        rw [(removeFromInflightStats_queued _ m).1, r3]
      have hqb : (removeFromInflightStats (restoreQuota (decide (0 < m.qos)) d) m).queued_bytes
          = d.queued_bytes := by
        rw [(removeFromInflightStats_queued _ m).2.1, r4]
      have hqb12 : (removeFromInflightStats (restoreQuota (decide (0 < m.qos)) d) m).queued_bytes12
          = d.queued_bytes12 := by
        rw [(removeFromInflightStats_queued _ m).2.2.1, r5]
      refine ⟨?_, ?_, ?_, ?_, ?_⟩
      · rw [sumP_cons]
        omega
      · rw [sumP12_cons]
        omega
      · rw [i3, hqf]
      · rw [i4, hqb]
      · rw [i5, hqb12]
    · obtain ⟨i1, i2, i3, i4, i5⟩ := ih d
      refine ⟨?_, ?_, i3, i4, i5⟩ <;> dsimp only
      · rw [sumP_cons, sumP_cons]
        omega
      · rw [sumP12_cons, sumP12_cons]
        omega

theorem removeFromQueuedStats_inflight (d : MsgData) (m : ClientMsg) :
    (removeFromQueuedStats d m).inflight = d.inflight ∧
    (removeFromQueuedStats d m).inflight_bytes = d.inflight_bytes ∧
    (removeFromQueuedStats d m).inflight_bytes12 = d.inflight_bytes12 ∧
    (removeFromQueuedStats d m).queued_bytes = d.queued_bytes - plen m := by
  refine ⟨rfl, rfl, rfl, ?_⟩
  simp [removeFromQueuedStats, plen]

theorem expireQueuedAux_spec (now : Nat) (l : List ClientMsg) (d : MsgData) :
    (expireQueuedAux now l d).2.queued_bytes + sumP l
      = d.queued_bytes + sumP (expireQueuedAux now l d).1 ∧
    (expireQueuedAux now l d).2.queued_bytes12 + sumP12 l
      = d.queued_bytes12 + sumP12 (expireQueuedAux now l d).1 ∧
    (expireQueuedAux now l d).2.inflight = d.inflight ∧
    (expireQueuedAux now l d).2.inflight_bytes = d.inflight_bytes ∧
    (expireQueuedAux now l d).2.inflight_bytes12 = d.inflight_bytes12 := by
  induction l generalizing d with
  | nil => simp [expireQueuedAux]
  | cons m rest ih =>
    unfold expireQueuedAux
    split
    · obtain ⟨i1, i2, i3, i4, i5⟩ := ih (removeFromQueuedStats d m)
      obtain ⟨q1, q2, q3, q4⟩ := removeFromQueuedStats_inflight d m
      have hb12 := removeFromQueuedStats_bytes12 d m
      refine ⟨?_, ?_, ?_, ?_, ?_⟩
      · rw [sumP_cons]
        omega
      · rw [sumP12_cons]
        omega
      · rw [i3, q1]
      · rw [i4, q2]
      · rw [i5, q3]
    · obtain ⟨i1, i2, i3, i4, i5⟩ := ih d
      refine ⟨?_, ?_, i3, i4, i5⟩ <;> dsimp only
      · rw [sumP_cons, sumP_cons]
        omega
      · rw [sumP12_cons, sumP12_cons]
        omega

theorem bytesInv_expireMsgData (now : Nat) (d : MsgData) (h : bytesInv d) :
    bytesInv (expireMsgData now d) := by
  obtain ⟨h1, h2, h3, h4⟩ := h
  unfold expireMsgData
  obtain ⟨e1, e2, e3, e4, e5⟩ := expireInflightAux_spec now d.inflight d
  obtain ⟨q1, q2, q3, q4, q5⟩ :=
    expireQueuedAux_spec now
      ({ (expireInflightAux now d.inflight d).2 with
          inflight := (expireInflightAux now d.inflight d).1 } : MsgData).queued
      { (expireInflightAux now d.inflight d).2 with
          inflight := (expireInflightAux now d.inflight d).1 }
  dsimp only at q1 q2 q3 q4 q5
  have hd1 : (expireInflightAux now d.inflight d).2.queued_bytes
      = sumP (expireInflightAux now d.inflight d).2.queued := by
    rw [e4, e3, h3]
  have hd1b : (expireInflightAux now d.inflight d).2.queued_bytes12
      = sumP12 (expireInflightAux now d.inflight d).2.queued := by
    rw [e5, e3, h4]
  refine ⟨?_, ?_, ?_, ?_⟩ <;> dsimp only
  · rw [q4, q3]
    omega
  · rw [q5, q3]
    omega
  · omega
  · omega

theorem ctxInv_expireAllMessages (env : Env) (c : Context) (h : ctxInv c) :
    ctxInv (expireAllMessages env c) :=
  ⟨bytesInv_expireMsgData env.now c.msgs_out h.1, bytesInv_expireMsgData env.now c.msgs_in h.2⟩

theorem rrNormalizeOut_plen (m : ClientMsg) :
    plen (rrNormalizeOut m) = plen m ∧ plen12 (rrNormalizeOut m) = plen12 m := by
  unfold rrNormalizeOut
  split
  · exact ⟨rfl, rfl⟩
  · exact ⟨rfl, rfl⟩
  · split <;> exact ⟨rfl, rfl⟩
  · exact ⟨rfl, rfl⟩

theorem sumP_map_rrNormalizeOut (l : List ClientMsg) :
    sumP (l.map rrNormalizeOut) = sumP l ∧ sumP12 (l.map rrNormalizeOut) = sumP12 l := by
  induction l with
  | nil => exact ⟨rfl, rfl⟩
  | cons m rest ih =>
      obtain ⟨p1, p2⟩ := rrNormalizeOut_plen m
      refine ⟨?_, ?_⟩ <;> simp only [List.map_cons, sumP_cons, sumP12_cons, p1, p2]
      · rw [ih.1]
      · rw [ih.2]

theorem spendQuota_fields (b : Bool) (d : MsgData) :
    (spendQuota b d).inflight_bytes = d.inflight_bytes ∧
    (spendQuota b d).inflight_bytes12 = d.inflight_bytes12 ∧
    (spendQuota b d).queued = d.queued ∧
    (spendQuota b d).inflight = d.inflight ∧
    (spendQuota b d).queued_bytes = d.queued_bytes ∧
    (spendQuota b d).queued_bytes12 = d.queued_bytes12 ∧
    (spendQuota b d).inflight_maximum = d.inflight_maximum ∧
    (spendQuota b d).inflight_quota = d.inflight_quota - (if b then 1 else 0) := by
  cases b <;> simp [spendQuota]

theorem addToInflightStats_fields (d : MsgData) (m : ClientMsg) :
    (addToInflightStats d m).inflight_bytes = d.inflight_bytes + plen m ∧
    (addToInflightStats d m).queued = d.queued ∧
    (addToInflightStats d m).inflight = d.inflight ∧
    (addToInflightStats d m).queued_bytes = d.queued_bytes ∧
    (addToInflightStats d m).queued_bytes12 = d.queued_bytes12 ∧
    (addToInflightStats d m).inflight_maximum = d.inflight_maximum ∧
    (addToInflightStats d m).inflight_quota = d.inflight_quota := by
  refine ⟨?_, rfl, rfl, rfl, rfl, rfl, rfl⟩
  simp [addToInflightStats, plen]

theorem rrStep_fields (d : MsgData) (m : ClientMsg) :
    (spendQuota (decide (0 < m.qos)) (addToInflightStats d m)).inflight_bytes
      = d.inflight_bytes + plen m ∧
    (spendQuota (decide (0 < m.qos)) (addToInflightStats d m)).inflight_bytes12
      = d.inflight_bytes12 + plen12 m ∧
    (spendQuota (decide (0 < m.qos)) (addToInflightStats d m)).queued = d.queued ∧
    (spendQuota (decide (0 < m.qos)) (addToInflightStats d m)).inflight = d.inflight ∧
    (spendQuota (decide (0 < m.qos)) (addToInflightStats d m)).queued_bytes = d.queued_bytes ∧
    (spendQuota (decide (0 < m.qos)) (addToInflightStats d m)).queued_bytes12
      = d.queued_bytes12 ∧
    (spendQuota (decide (0 < m.qos)) (addToInflightStats d m)).inflight_maximum
      = d.inflight_maximum ∧
    (spendQuota (decide (0 < m.qos)) (addToInflightStats d m)).inflight_quota
      = d.inflight_quota - (if 0 < m.qos then 1 else 0) := by
  obtain ⟨s1, s2, s3, s4, s5, s6, s7, s8⟩ :=
    spendQuota_fields (decide (0 < m.qos)) (addToInflightStats d m)
  obtain ⟨a1, a2, a3, a4, a5, a6, a7⟩ := addToInflightStats_fields d m
  have a12 := addToInflightStats_bytes12 d m
  refine ⟨?_, ?_, ?_, ?_, ?_, ?_, ?_, ?_⟩
  · rw [s1, a1]
  · rw [s2, a12]
  · rw [s3, a2]
  · rw [s4, a3]
  · rw [s5, a4]
  · rw [s6, a5]
  · rw [s7, a6]
  · rw [s8, a7]
    by_cases hq0 : 0 < m.qos <;> simp [hq0]

theorem rrOutInflightAux_spec (l : List ClientMsg) (d : MsgData) :
    (rrOutInflightAux l d).1 = l.map rrNormalizeOut ∧
    (rrOutInflightAux l d).2.inflight_bytes = d.inflight_bytes + sumP l ∧
    (rrOutInflightAux l d).2.inflight_bytes12 = d.inflight_bytes12 + sumP12 l ∧
    (rrOutInflightAux l d).2.inflight_quota
      = d.inflight_quota - l.countP (fun m => decide (0 < m.qos)) ∧
    (rrOutInflightAux l d).2.queued = d.queued ∧
    (rrOutInflightAux l d).2.inflight = d.inflight ∧
    (rrOutInflightAux l d).2.queued_bytes = d.queued_bytes ∧
    (rrOutInflightAux l d).2.queued_bytes12 = d.queued_bytes12 ∧
    (rrOutInflightAux l d).2.inflight_maximum = d.inflight_maximum := by
  induction l generalizing d with
  | nil => simp [rrOutInflightAux, sumP_nil, sumP12_nil]
  | cons m rest ih =>
    unfold rrOutInflightAux
    obtain ⟨f1, f2, f3, f4, f5, f6, f7, f8⟩ := rrStep_fields d m
    obtain ⟨i1, i2, i3, i4, i5, i6, i7, i8, i9⟩ :=
      ih (spendQuota (decide (0 < m.qos)) (addToInflightStats d m))
    refine ⟨?_, ?_, ?_, ?_, ?_, ?_, ?_, ?_, ?_⟩ <;> dsimp only
    · rw [i1]
      simp
    · rw [i2, f1, sumP_cons]
      omega
    · rw [i3, f2, sumP12_cons]
      omega
    · rw [i4, f8, List.countP_cons]
      by_cases hq0 : 0 < m.qos <;> simp [hq0] <;> omega
    · rw [i5, f3]
    · rw [i6, f4]
    · rw [i7, f5]
    · rw [i8, f6]
    · rw [i9, f7]

theorem rrInInflightAux_spec (l : List ClientMsg) (d : MsgData) :
    (rrInInflightAux l d).2.inflight_bytes = d.inflight_bytes + sumP (rrInInflightAux l d).1 ∧
    (rrInInflightAux l d).2.inflight_bytes12
      = d.inflight_bytes12 + sumP12 (rrInInflightAux l d).1 ∧
    (rrInInflightAux l d).2.queued = d.queued ∧
    (rrInInflightAux l d).2.queued_bytes = d.queued_bytes ∧
    (rrInInflightAux l d).2.queued_bytes12 = d.queued_bytes12 ∧
    (rrInInflightAux l d).2.inflight = d.inflight := by
  induction l generalizing d with
  | nil => simp [rrInInflightAux, sumP_nil, sumP12_nil]
  | cons m rest ih =>
    unfold rrInInflightAux
    obtain ⟨f1, f2, f3, f4, f5, f6, f7, f8⟩ := rrStep_fields d m
    split
    · -- m.qos ≠ 2 : stats added then removed again, entry dropped
      obtain ⟨i1, i2, i3, i4, i5, i6⟩ :=
        ih (removeFromInflightStats
          (spendQuota (decide (0 < m.qos)) (addToInflightStats d m)) m)
      obtain ⟨q1, q2, q3, q4⟩ :=
        removeFromInflightStats_queued
          (spendQuota (decide (0 < m.qos)) (addToInflightStats d m)) m
      have r12 :=
        removeFromInflightStats_bytes12
          (spendQuota (decide (0 < m.qos)) (addToInflightStats d m)) m
      have rfi : (removeFromInflightStats
            (spendQuota (decide (0 < m.qos)) (addToInflightStats d m)) m).inflight
          = d.inflight := by
        rw [show (removeFromInflightStats
            (spendQuota (decide (0 < m.qos)) (addToInflightStats d m)) m).inflight
            = (spendQuota (decide (0 < m.qos)) (addToInflightStats d m)).inflight from rfl, f4]
      refine ⟨?_, ?_, ?_, ?_, ?_, ?_⟩
      · rw [i1, q4, f1]
        omega
      · rw [i2, r12, f2]
        omega
      · rw [i3, q1, f3]
      · rw [i4, q2, f5]
      · rw [i5, q3, f6]
      · rw [i6, rfi]
    · -- m.qos = 2 : entry kept
      obtain ⟨i1, i2, i3, i4, i5, i6⟩ :=
        ih (spendQuota (decide (0 < m.qos)) (addToInflightStats d m))
      refine ⟨?_, ?_, ?_, ?_, ?_, ?_⟩ <;> dsimp only
      · rw [sumP_cons, i1, f1]
        omega
      · rw [sumP12_cons, i2, f2]
        omega
      · rw [i3, f3]
      · rw [i4, f5]
      · rw [i5, f6]
      · rw [i6, f4]

theorem addToQueuedStats_fields (d : MsgData) (m : ClientMsg) :
    (addToQueuedStats d m).queued_bytes = d.queued_bytes + plen m ∧
    (addToQueuedStats d m).queued_bytes12 = d.queued_bytes12 + plen12 m ∧
    (addToQueuedStats d m).queued = d.queued ∧
    (addToQueuedStats d m).inflight = d.inflight ∧
    (addToQueuedStats d m).inflight_bytes = d.inflight_bytes ∧
    (addToQueuedStats d m).inflight_bytes12 = d.inflight_bytes12 ∧
    (addToQueuedStats d m).inflight_quota = d.inflight_quota ∧
    (addToQueuedStats d m).inflight_maximum = d.inflight_maximum := by
  refine ⟨?_, addToQueuedStats_bytes12 d m, rfl, rfl, rfl, rfl, rfl, rfl⟩
  simp [addToQueuedStats, plen]

theorem plen_pubStateFor (m : ClientMsg) :
    plen { m with state := pubStateFor m.qos m.state } = plen m := rfl

theorem plen12_pubStateFor (m : ClientMsg) :
    plen12 { m with state := pubStateFor m.qos m.state } = plen12 m := rfl

theorem rrQueuedAux_inv (cfg : Config) (opc : Nat) (dir : Direction)
    (rest : List ClientMsg) :
    ∀ (visited : List ClientMsg) (d : MsgData),
      d.queued = visited ++ rest →
      d.queued_bytes = sumP visited →
      d.queued_bytes12 = sumP12 visited →
      d.inflight_bytes = sumP d.inflight →
      d.inflight_bytes12 = sumP12 d.inflight →
      bytesInv (rrQueuedAux cfg opc dir visited rest d) := by
  induction rest with
  | nil =>
      intro visited d hq hqb hqb12 hib hib12
      unfold rrQueuedAux
      refine ⟨hib, hib12, ?_, ?_⟩
      · rw [hqb, hq]
        simp
      · rw [hqb12, hq]
        simp
  | cons m rest ih =>
    intro visited d hq hqb hqb12 hib hib12
    unfold rrQueuedAux
    dsimp only
    obtain ⟨a1, a2, a3, a4, a5, a6, a7, a8⟩ := addToQueuedStats_fields d m
    split
    · -- ready: the head of the whole queue is moved to inflight
      cases visited with
      | nil =>
          obtain ⟨f1, f2, f3, f4, f5, f6, f7, f8⟩ :=
            dequeueFirstD_fields
              { addToQueuedStats d m with
                queued := [] ++ { m with state := pubStateFor m.qos m.state } :: rest }
              { m with state := pubStateFor m.qos m.state } rest (by simp)
          dsimp only at f1 f2 f3 f4 f5 f6
          apply ih
          · rw [f2]
            simp
          · rw [f5, a1, hqb]
            simp only [List.nil_append, List.drop_succ_cons, List.drop_zero,
              sumP_nil, plen_pubStateFor]
            omega
          · rw [f6, a2, hqb12]
            simp only [List.nil_append, List.drop_succ_cons, List.drop_zero,
              sumP12_nil, plen12_pubStateFor]
            omega
          · rw [f3, f1, a5, a4, hib, sumP_append, sumP_cons, sumP_nil, plen_pubStateFor]
            omega
          · rw [f4, f1, a6, a4, hib12, sumP12_append, sumP12_cons, sumP12_nil,
              plen12_pubStateFor]
            omega
      | cons v0 vs =>
          obtain ⟨f1, f2, f3, f4, f5, f6, f7, f8⟩ :=
            dequeueFirstD_fields
              { addToQueuedStats d m with
                queued := (v0 :: vs) ++ { m with state := pubStateFor m.qos m.state } :: rest }
              v0 (vs ++ { m with state := pubStateFor m.qos m.state } :: rest) (by simp)
          dsimp only at f1 f2 f3 f4 f5 f6
          rw [hqb, sumP_cons] at a1
          rw [hqb12, sumP12_cons] at a2
          apply ih
          · rw [f2]
            simp
          · rw [f5, a1]
            simp only [List.cons_append, List.drop_succ_cons, List.drop_zero,
              sumP_append, sumP_cons, sumP_nil, plen_pubStateFor]
            omega
          · rw [f6, a2]
            simp only [List.cons_append, List.drop_succ_cons, List.drop_zero,
              sumP12_append, sumP12_cons, sumP12_nil, plen12_pubStateFor]
            omega
          · rw [f3, f1, a5, a4, hib, sumP_append, sumP_cons, sumP_nil]
            omega
          · rw [f4, f1, a6, a4, hib12, sumP12_append, sumP12_cons, sumP12_nil]
            omega
    · -- not ready: entry stays queued, stats already added
      apply ih
      · rw [a3, hq]
        simp
      · rw [a1, hqb, sumP_append]
        simp [sumP_cons, sumP_nil]
      · rw [a2, hqb12, sumP12_append]
        simp [sumP12_cons, sumP12_nil]
      · rw [a5, a4, hib]
      · rw [a6, a4, hib12]

theorem rrQueuedAux_quota (cfg : Config) (opc : Nat) (dir : Direction)
    (rest : List ClientMsg) :
    ∀ (visited : List ClientMsg) (d : MsgData), d.queued = visited ++ rest →
      ∃ ext : List ClientMsg,
        (rrQueuedAux cfg opc dir visited rest d).inflight = d.inflight ++ ext ∧
        (rrQueuedAux cfg opc dir visited rest d).inflight_quota
          = d.inflight_quota - ext.length ∧
        (rrQueuedAux cfg opc dir visited rest d).queued.length + ext.length
          = d.queued.length ∧
        (rrQueuedAux cfg opc dir visited rest d).inflight_maximum = d.inflight_maximum := by
  induction rest with
  | nil =>
      intro visited d hq
      refine ⟨[], ?_, ?_, ?_, ?_⟩ <;> simp [rrQueuedAux]
  | cons m rest ih =>
    intro visited d hq
    unfold rrQueuedAux
    dsimp only
    obtain ⟨a1, a2, a3, a4, a5, a6, a7, a8⟩ := addToQueuedStats_fields d m
    split
    · cases visited with
      | nil =>
          obtain ⟨f1, f2, f3, f4, f5, f6, f7, f8⟩ :=
            dequeueFirstD_fields
              { addToQueuedStats d m with
                queued := [] ++ { m with state := pubStateFor m.qos m.state } :: rest }
              { m with state := pubStateFor m.qos m.state } rest (by simp)
          dsimp only at f1 f2 f7 f8
          obtain ⟨ext, e1, e2, e3, e4⟩ :=
            ih (List.drop 1 ([] ++ [{ m with state := pubStateFor m.qos m.state }]))
              (dequeueFirstD
                { addToQueuedStats d m with
                  queued := [] ++ { m with state := pubStateFor m.qos m.state } :: rest })
              (by rw [f2]; simp)
          refine ⟨{ m with state := pubStateFor m.qos m.state } :: ext, ?_, ?_, ?_, ?_⟩
          · rw [e1, f1, a4]
            simp
          · rw [e2, f7, a7]
            simp only [List.length_cons]
            omega
          · rw [hq]
            have hlen := e3
            rw [f2] at hlen
            simp only [List.length_cons, List.nil_append] at hlen ⊢
            omega
          · rw [e4, f8, a8]
      | cons v0 vs =>
          obtain ⟨f1, f2, f3, f4, f5, f6, f7, f8⟩ :=
            dequeueFirstD_fields
              { addToQueuedStats d m with
                queued := (v0 :: vs) ++ { m with state := pubStateFor m.qos m.state } :: rest }
              v0 (vs ++ { m with state := pubStateFor m.qos m.state } :: rest) (by simp)
          dsimp only at f1 f2 f7 f8
          obtain ⟨ext, e1, e2, e3, e4⟩ :=
            ih (List.drop 1 ((v0 :: vs) ++ [{ m with state := pubStateFor m.qos m.state }]))
              (dequeueFirstD
                { addToQueuedStats d m with
                  queued := (v0 :: vs) ++ { m with state := pubStateFor m.qos m.state } :: rest })
              (by rw [f2]; simp)
          refine ⟨v0 :: ext, ?_, ?_, ?_, ?_⟩
          · rw [e1, f1, a4]
            simp
          · rw [e2, f7, a7]
            simp only [List.length_cons]
            omega
          · rw [hq]
            have hlen := e3
            rw [f2] at hlen
            simp only [List.length_cons, List.length_append, List.cons_append] at hlen ⊢
            omega
          · rw [e4, f8, a8]
    · obtain ⟨ext, e1, e2, e3, e4⟩ :=
        ih (visited ++ [m]) (addToQueuedStats d m) (by rw [a3, hq]; simp)
      refine ⟨ext, ?_, ?_, ?_, ?_⟩
      · rw [e1, a4]
      · rw [e2, a7]
      · rw [e3, a3]
      · rw [e4, a8]

theorem bytesInv_reconnectResetOutgoing (env : Env) (c : Context) :
    bytesInv (reconnectResetOutgoing env c).msgs_out := by
  unfold reconnectResetOutgoing
  dsimp only
  obtain ⟨i1, i2, i3, i4, i5, i6, i7, i8, i9⟩ :=
    rrOutInflightAux_spec (rrZeroStats c.msgs_out).inflight (rrZeroStats c.msgs_out)
  obtain ⟨m1, m2⟩ := sumP_map_rrNormalizeOut (rrZeroStats c.msgs_out).inflight
  apply rrQueuedAux_inv
  · simp
  · dsimp only
    rw [i7]
    rfl
  · dsimp only
    rw [i8]
    rfl
  · dsimp only
    rw [i2, i1, m1]
    simp [rrZeroStats]
  · dsimp only
    rw [i3, i1, m2]
    simp [rrZeroStats]

theorem reconnectResetOutgoing_ctx (env : Env) (c : Context) :
    (reconnectResetOutgoing env c).msgs_in = c.msgs_in ∧
    (reconnectResetOutgoing env c).stats = c.stats ∧
    (reconnectResetOutgoing env c).is_dropping = c.is_dropping := by
  unfold reconnectResetOutgoing
  exact ⟨rfl, rfl, rfl⟩

theorem bytesInv_reconnectResetIncoming (env : Env) (c : Context) :
    bytesInv (reconnectResetIncoming env c).msgs_in := by
  unfold reconnectResetIncoming
  dsimp only
  obtain ⟨i1, i2, i3, i4, i5, i6⟩ :=
    rrInInflightAux_spec (rrZeroStats c.msgs_in).inflight (rrZeroStats c.msgs_in)
  apply rrQueuedAux_inv
  · simp
  · dsimp only
    rw [i4]
    rfl
  · dsimp only
    rw [i5]
    rfl
  · dsimp only
    rw [i1]
    simp [rrZeroStats]
  · dsimp only
    rw [i2]
    simp [rrZeroStats]

theorem reconnectResetIncoming_ctx (env : Env) (c : Context) :
    (reconnectResetIncoming env c).msgs_out = c.msgs_out ∧
    (reconnectResetIncoming env c).stats = c.stats ∧
    (reconnectResetIncoming env c).is_dropping = c.is_dropping := by
  unfold reconnectResetIncoming
  exact ⟨rfl, rfl, rfl⟩

theorem ctxInv_reconnectReset (env : Env) (c : Context) :
    ctxInv (reconnectReset env c) := by
  unfold reconnectReset
  constructor
  · rw [(reconnectResetIncoming_ctx env _).1]
    exact bytesInv_reconnectResetOutgoing env c
  · exact bytesInv_reconnectResetIncoming env _

theorem bytesInv_appendQueued (d : MsgData) (m : ClientMsg) (h : bytesInv d) :
    bytesInv (addToQueuedStats { d with queued := d.queued ++ [m] } m) := by
  obtain ⟨h1, h2, h3, h4⟩ := h
  obtain ⟨a1, a2, a3, a4, a5, a6, a7, a8⟩ :=
    addToQueuedStats_fields { d with queued := d.queued ++ [m] } m
  refine ⟨?_, ?_, ?_, ?_⟩
  · rw [a5, a4]
    exact h1
  · rw [a6, a4]
    exact h2
  · rw [a1, a3]
    dsimp only
    rw [h3, sumP_append, sumP_cons, sumP_nil]
    omega
  · rw [a2, a3]
    dsimp only
    rw [h4, sumP12_append, sumP12_cons, sumP12_nil]
    omega

theorem bytesInv_appendInflight (d : MsgData) (m : ClientMsg) (h : bytesInv d) :
    bytesInv (addToInflightStats { d with inflight := d.inflight ++ [m] } m) := by
  obtain ⟨h1, h2, h3, h4⟩ := h
  obtain ⟨a1, a2, a3, a4, a5, a6, a7⟩ :=
    addToInflightStats_fields { d with inflight := d.inflight ++ [m] } m
  have a12 := addToInflightStats_bytes12 { d with inflight := d.inflight ++ [m] } m
  refine ⟨?_, ?_, ?_, ?_⟩
  · rw [a1, a3]
    dsimp only
    rw [h1, sumP_append, sumP_cons, sumP_nil]
    omega
  · rw [a12, a3]
    dsimp only
    rw [h2, sumP12_append, sumP12_cons, sumP12_nil]
    omega
  · rw [a2, a4]
    exact h3
  · rw [a2, a5]
    exact h4

theorem ctxInv_writeInflightOutLatest (env : Env) (c : Context) (h : ctxInv c) :
    ctxInv (writeInflightOutLatest env c).2 := by
  refine ⟨bytesInv_writeInflightOutLatest env c h.1, ?_⟩
  rw [(writeInflightOutLatest_ctx env c).1]
  exact h.2

theorem ctxInv_writeQueuedOut (env : Env) (c : Context) (h : ctxInv c) :
    ctxInv (writeQueuedOut env c).2 := by
  refine ⟨bytesInv_writeQueuedOut env c h.1, ?_⟩
  rw [(writeQueuedOut_ctx env c).1]
  exact h.2

theorem ctxInv_insertIncomingAdmit (c : Context) (cmsg_id : Nat) (base : BaseMsg)
    (st : MsgState) (rc : Rc) (h : ctxInv c) :
    ctxInv (insertIncomingAdmit c cmsg_id base st rc).ctx := by
  obtain ⟨ho, hi⟩ := h
  unfold insertIncomingAdmit
  dsimp only
  by_cases hcm : cmsg_id ≠ 0 <;>
    simp only [if_pos, if_neg, hcm, ite_true, ite_false, if_true, if_false, ite_not] <;>
    by_cases hst : st = MsgState.ms_queued <;>
    simp only [hst, ite_true, ite_false, if_true, if_false] <;>
    by_cases hbq : base.qos > 0 <;>
    simp only [hbq, ite_true, ite_false, if_true, if_false, decrementReceiveQuota] <;>
    exact ⟨ho, by first
      | exact bytesInv_appendQueued c.msgs_in _ hi
      | exact bytesInv_appendInflight c.msgs_in _ hi⟩

theorem ctxInv_insertIncoming (env : Env) (c : Context) (cmsg_id : Nat) (base : BaseMsg)
    (persist : Bool) (h : ctxInv c) :
    ctxInv (insertIncoming env c cmsg_id base persist).ctx := by
  unfold insertIncoming
  cases hid : c.id with
  | none => exact h
  | some cid =>
      dsimp only
      split
      · exact ctxInv_insertIncomingAdmit c cmsg_id base _ _ h
      · split
        · exact ctxInv_insertIncomingAdmit c cmsg_id base _ _ h
        · exact h

theorem ctxInv_appendMsgOut (c : Context) (msg : ClientMsg) (st : MsgState) (h : ctxInv c) :
    ctxInv (appendMsgOut c msg st) := by
  unfold appendMsgOut
  split
  · exact ⟨bytesInv_appendQueued c.msgs_out msg h.1, h.2⟩
  · exact ⟨bytesInv_appendInflight c.msgs_out msg h.1, h.2⟩

theorem ctxInv_bridgeLazyFlag (c : Context) (h : ctxInv c) : ctxInv (bridgeLazyFlag c) := by
  unfold bridgeLazyFlag
  split
  · exact h
  · exact h

theorem ctxInv_decrementSendQuota (c : Context) (h : ctxInv c) :
    ctxInv (decrementSendQuota c) := by
  obtain ⟨⟨h1, h2, h3, h4⟩, hi⟩ := h
  exact ⟨⟨h1, h2, h3, h4⟩, hi⟩

theorem ctxInv_insertOutgoingUpdate (env : Env) (c : Context) (base2 : BaseMsg)
    (h : ctxInv c) : ctxInv (insertOutgoingUpdate env c base2).ctx := by
  unfold insertOutgoingUpdate
  split
  · exact ctxInv_writeInflightOutLatest env c h
  · exact ctxInv_writeQueuedOut env _ (ctxInv_writeInflightOutLatest env c h)

theorem ctxInv_insertOutgoingAdmit (env : Env) (c : Context) (cid : String)
    (cmsg_id mid qos : Nat) (retain : Bool) (base : BaseMsg) (subid : Nat)
    (update : Bool) (st : MsgState) (rc0 : Rc) (h : ctxInv c) :
    ctxInv (insertOutgoingAdmit env c cid cmsg_id mid qos retain base subid update st rc0).ctx := by
  unfold insertOutgoingAdmit
  dsimp only
  have hcore : ∀ msg : ClientMsg, ∀ (P : Prop) (_ : Decidable P),
      ctxInv (if P then
          decrementSendQuota (bridgeLazyFlag (appendMsgOut
            (if cmsg_id ≠ 0 then c else { c with last_cmsg_id := c.last_cmsg_id + 1 }) msg st))
        else bridgeLazyFlag (appendMsgOut
            (if cmsg_id ≠ 0 then c else { c with last_cmsg_id := c.last_cmsg_id + 1 }) msg st)) := by
    intro msg P hP
    have hbase : ctxInv (bridgeLazyFlag (appendMsgOut
        (if cmsg_id ≠ 0 then c else { c with last_cmsg_id := c.last_cmsg_id + 1 }) msg st)) := by
      apply ctxInv_bridgeLazyFlag
      apply ctxInv_appendMsgOut
      split
      · exact h
      · exact h
    split
    · exact ctxInv_decrementSendQuota _ hbase
    · exact hbase
  split
  · exact ctxInv_insertOutgoingUpdate env _ _ (hcore _ _ inferInstance)
  · exact hcore _ _ inferInstance

theorem ctxInv_insertOutgoing (env : Env) (c : Context) (cmsg_id mid qos : Nat)
    (retain : Bool) (base : BaseMsg) (subid : Nat) (update persist : Bool) (h : ctxInv c) :
    ctxInv (insertOutgoing env c cmsg_id mid qos retain base subid update persist).ctx := by
  unfold insertOutgoing
  cases hid : c.id with
  | none => exact h
  | some cid =>
      dsimp only
      split
      · exact h
      · split
        · exact h
        · split
          · split
            · exact ctxInv_insertOutgoingAdmit env _ cid cmsg_id mid qos retain base subid
                update _ _ h
            · split
              · exact ctxInv_insertOutgoingAdmit env _ cid cmsg_id mid qos retain base subid
                  update _ _ h
              · exact h
          · split
            · exact ctxInv_insertOutgoingAdmit env _ cid cmsg_id mid qos retain base subid
                update _ _ h
            · exact h

theorem ctxInv_applyOp (env : Env) (c : Context) (op : Op) (h : ctxInv c) :
    ctxInv (applyOp env c op) := by
  cases op with
  | insertOut cmsg_id mid qos retain base subid update persist =>
      exact ctxInv_insertOutgoing env c cmsg_id mid qos retain base subid update persist h
  | insertIn cmsg_id base persist => exact ctxInv_insertIncoming env c cmsg_id base persist h
  | deleteOut mid expect qos => exact ctxInv_deleteOutgoing env c mid expect qos h
  | updateOut mid st qos => exact ctxInv_updateOutgoing c mid st qos h
  | removeIn mid => exact ctxInv_removeIncoming c mid h
  | releaseIn mid => exact ctxInv_releaseIncoming env c mid h
  | dequeueFirst dir =>
      cases dir with
      | md_out => exact ⟨bytesInv_dequeueFirstD c.msgs_out h.1, h.2⟩
      | md_in => exact ⟨h.1, bytesInv_dequeueFirstD c.msgs_in h.2⟩
  | reconnectResetOp => exact ctxInv_reconnectReset env c
  | expireAll => exact ctxInv_expireAllMessages env c h

theorem runOps_inv (env : Env) (ops : List Op) :
    ∀ c : Context, ctxInv c → ctxInv (runOps env c ops) := by
  induction ops with
  | nil =>
      intro c h
      exact h
  | cons op ops ih =>
      intro c h
      exact ih _ (ctxInv_applyOp env c op h)

theorem appendMsgOut_stats (c : Context) (msg : ClientMsg) (st : MsgState) :
    (appendMsgOut c msg st).stats = c.stats := by
  unfold appendMsgOut
  split <;> rfl

theorem bridgeLazyFlag_stats (c : Context) : (bridgeLazyFlag c).stats = c.stats := by
  unfold bridgeLazyFlag
  split <;> rfl

theorem insertOutgoingUpdate_stats (env : Env) (c : Context) (b2 : BaseMsg) :
    (insertOutgoingUpdate env c b2).ctx.stats = c.stats := by
  unfold insertOutgoingUpdate
  split
  · exact (writeInflightOutLatest_ctx env c).2.1
  · dsimp only
    rw [(writeQueuedOut_ctx env _).2.1, (writeInflightOutLatest_ctx env c).2.1]

theorem insertOutgoingAdmit_stats (env : Env) (c : Context) (cid : String)
    (cmsg_id mid qos : Nat) (retain : Bool) (base : BaseMsg) (subid : Nat)
    (update : Bool) (st : MsgState) (rc0 : Rc) :
    (insertOutgoingAdmit env c cid cmsg_id mid qos retain base subid update st rc0).ctx.stats
      = c.stats := by
  unfold insertOutgoingAdmit
  dsimp only
  have hc1 : (if cmsg_id ≠ 0 then c else { c with last_cmsg_id := c.last_cmsg_id + 1 }).stats
      = c.stats := by
    split <;> rfl
  have hcore : ∀ msg : ClientMsg, ∀ (P : Prop) (_ : Decidable P),
      (if P then
          decrementSendQuota (bridgeLazyFlag (appendMsgOut
            (if cmsg_id ≠ 0 then c else { c with last_cmsg_id := c.last_cmsg_id + 1 }) msg st))
        else bridgeLazyFlag (appendMsgOut
            (if cmsg_id ≠ 0 then c else { c with last_cmsg_id := c.last_cmsg_id + 1 }) msg st)).stats
      = c.stats := by
    intro msg P hP
    have hbase : (bridgeLazyFlag (appendMsgOut
        (if cmsg_id ≠ 0 then c else { c with last_cmsg_id := c.last_cmsg_id + 1 }) msg st)).stats
        = c.stats := by
      rw [bridgeLazyFlag_stats, appendMsgOut_stats, hc1]
    split
    · exact hbase
    · exact hbase
  split
  · rw [insertOutgoingUpdate_stats]
    exact hcore _ _ inferInstance
  · exact hcore _ _ inferInstance

theorem delScanInflight_protoErr_of_find (mid : Nat) (expect : MsgState) (qos : Nat)
    (l : List ClientMsg) (d : MsgData) (m : ClientMsg)
    (hf : l.find? (fun x => x.mid == mid) = some m)
    (hbad : m.qos ≠ qos ∨ (qos = 2 ∧ m.state ≠ expect)) :
    delScanInflight mid expect qos l d = .protoErr := by
  induction l with
  | nil => simp at hf
  | cons a rest ih =>
      unfold delScanInflight
      by_cases ha : a.mid = mid
      · rw [if_pos ha]
        have ham : a = m := by
          rw [List.find?_cons_of_pos _ (by simp [ha])] at hf
          exact Option.some.inj hf
        subst ham
        rcases hbad with hb | ⟨hq2, hst⟩
        · rw [if_pos hb]
        · by_cases hbq : a.qos ≠ qos
          · rw [if_pos hbq]
          · rw [if_neg hbq, if_pos ⟨hq2, hst⟩]
      · rw [if_neg ha]
        have hf' : rest.find? (fun x => x.mid == mid) = some m := by
          rwa [List.find?_cons_of_neg _ (by simp [ha])] at hf
        rw [ih hf']

theorem delScanInflight_noMatch_of_find_none (mid : Nat) (expect : MsgState) (qos : Nat)
    (l : List ClientMsg) (d : MsgData)
    (hf : l.find? (fun x => x.mid == mid) = none) :
    delScanInflight mid expect qos l d = .noMatch := by
  induction l with
  | nil => rfl
  | cons a rest ih =>
      by_cases ha : a.mid = mid
      · rw [List.find?_cons_of_pos _ (by simp [ha])] at hf
        simp at hf
      · unfold delScanInflight
        rw [if_neg ha]
        have hf' : rest.find? (fun x => x.mid == mid) = none := by
          rwa [List.find?_cons_of_neg _ (by simp [ha])] at hf
        rw [ih hf']

theorem delScanQueued_protoErr_of_find (mid : Nat) (expect : MsgState) (qos : Nat)
    (l : List ClientMsg) (d : MsgData) (m : ClientMsg)
    (hf : l.find? (fun x => x.mid == mid) = some m)
    (hbad : m.qos ≠ qos ∨ (qos = 2 ∧ m.state ≠ expect)) :
    delScanQueued mid expect qos l d = .protoErr := by
  induction l with
  | nil => simp at hf
  | cons a rest ih =>
      unfold delScanQueued
      by_cases ha : a.mid = mid
      · rw [if_pos ha]
        have ham : a = m := by
          rw [List.find?_cons_of_pos _ (by simp [ha])] at hf
          exact Option.some.inj hf
        subst ham
        rcases hbad with hb | ⟨hq2, hst⟩
        · rw [if_pos hb]
        · by_cases hbq : a.qos ≠ qos
          · rw [if_pos hbq]
          · rw [if_neg hbq, if_pos ⟨hq2, hst⟩]
      · rw [if_neg ha]
        have hf' : rest.find? (fun x => x.mid == mid) = some m := by
          rwa [List.find?_cons_of_neg _ (by simp [ha])] at hf
        rw [ih hf']

theorem runMsgIds_spec (nodeShifted : Nat) (ticks : List (Nat × Nat)) :
    ∀ last : Nat, List.Chain' (· < ·) (runMsgIds nodeShifted last ticks) ∧
      ∀ x ∈ runMsgIds nodeShifted last ticks, last < x := by
  induction ticks with
  | nil =>
      intro last
      exact ⟨List.chain'_nil, by simp [runMsgIds]⟩
  | cons t ts ih =>
      intro last
      have hgt : last < newMsgId nodeShifted last t.1 t.2 := by
        unfold newMsgId
        dsimp only
        split <;> omega
      obtain ⟨hc, hall⟩ := ih (newMsgId nodeShifted last t.1 t.2)
      constructor
      · unfold runMsgIds
        dsimp only
        apply List.chain'_cons'.mpr
        refine ⟨?_, hc⟩
        intro y hy
        exact hall y (List.mem_of_mem_head? hy)
      · intro x hx
        unfold runMsgIds at hx
        dsimp only at hx
        rcases List.mem_cons.mp hx with h1 | h2
        · rw [h1]
          exact hgt
        · exact lt_trans hgt (hall x h2)

/-- C1: after any sequence of the public operations (insert_outgoing,
insert_incoming, delete_outgoing, update_outgoing, remove_incoming,
release_incoming, dequeue_first, reconnect_reset, expire_all_messages)
completes, for the session and both directions the payload-length sum over
the inflight list equals `inflight_bytes` and the QoS-1/2 subset equals
`inflight_bytes12`, and the identical law holds for the queued list with
`queued_bytes` and `queued_bytes12` — for every environment (send/routing
oracle outcomes included) and every starting session satisfying the law. -/
theorem c1_byte_accounting_invariant (env : Env) (ops : List Op) (c : Context)
    (h : ctxInv c) : ctxInv (runOps env c ops) :=
  runOps_inv env ops c h

theorem c1_byte_accounting_invariant_witness :
    ctxInv sCtx ∧ ctxInv (runOps sEnv sCtx c1Ops) :=
  ⟨by decide, c1_byte_accounting_invariant sEnv c1Ops sCtx (by decide)⟩

/-- C3 (code bug, evaluated at the failing input): `db__message_release_incoming`
removes the matching inflight entry, and `db__ready_for_flight` then holds for
the queued QoS 2 entry — yet the entry is NOT promoted: it stays on the queued
list in state `mosq_ms_queued`, no PUBREC is sent and nothing moves to
inflight, because the promotion loop breaks when `db__ready_for_flight` is
TRUE (inverted with respect to the sibling loops in
`db__message_write_queued_out` and `db__message_delete_outgoing`, which break
when it is false, and to the spec, which promotes while it holds). -/
theorem c3_release_incoming_inverted_promotion :
    (releaseIncoming sEnv c3Ctx 8).1 = .ok ∧
    (releaseIncoming sEnv c3Ctx 8).2.msgs_in.inflight = [] ∧
    readyForFlight sEnv (releaseIncoming sEnv c3Ctx 8).2 .md_in 2 = true ∧
    (releaseIncoming sEnv c3Ctx 8).2.msgs_in.queued = [c3MsgQ] ∧
    c3MsgQ.state = .ms_queued ∧ c3MsgQ.qos = 2 := by
  decide

/-- C4 counterexample: a session with `inflight_maximum = 2`, an empty
outgoing inflight list and one queued QoS 1 message; after
`db__message_reconnect_reset_outgoing` the quota is 1, not the maximum 2
(`db__message_dequeue_first` consumed one unit while promoting the queued
message), refuting `inflight_quota == inflight_maximum`. -/
theorem c4_reconnect_reset_outgoing_cex :
    (reconnectResetOutgoing sEnv c4Ctx).msgs_out.inflight_quota = 1 ∧
    c4Ctx.msgs_out.inflight_maximum = 2 ∧
    (reconnectResetOutgoing sEnv c4Ctx).msgs_out.inflight_quota
      ≠ c4Ctx.msgs_out.inflight_maximum := by
  decide

/-- C4 (amended): after `db__message_reconnect_reset_outgoing`, the entries
that were inflight remain at the front of the inflight list with their states
normalized by `rrNormalizeOut` — QoS 0 → publish_qos0, QoS 1 → publish_qos1,
QoS 2 in wait_for_pubcomp → resend_pubrel and other QoS 2 → publish_qos2 —
possibly followed by entries promoted from the queue; and `inflight_quota`
equals `inflight_maximum` minus one per QoS ≥ 1 entry that was inflight and
one per entry promoted from the queue (saturating at zero), rather than
`inflight_maximum` itself. -/
theorem c4_reconnect_reset_outgoing (env : Env) (c : Context) :
    (∃ promoted : List ClientMsg,
      (reconnectResetOutgoing env c).msgs_out.inflight
        = c.msgs_out.inflight.map rrNormalizeOut ++ promoted ∧
      (reconnectResetOutgoing env c).msgs_out.inflight_quota
        = c.msgs_out.inflight_maximum
          - (c.msgs_out.inflight.countP (fun m => decide (0 < m.qos)) + promoted.length) ∧
      (reconnectResetOutgoing env c).msgs_out.queued.length + promoted.length
        = c.msgs_out.queued.length) ∧
    (∀ m : ClientMsg, m.qos = 2 → m.state = .wait_for_pubcomp →
      (rrNormalizeOut m).state = .resend_pubrel) ∧
    (∀ m : ClientMsg, m.qos = 2 → m.state ≠ .wait_for_pubcomp →
      (rrNormalizeOut m).state = .publish_qos2) ∧
    (∀ m : ClientMsg, m.qos = 1 → (rrNormalizeOut m).state = .publish_qos1) ∧
    (∀ m : ClientMsg, m.qos = 0 → (rrNormalizeOut m).state = .publish_qos0) := by
  refine ⟨?_, ?_, ?_, ?_, ?_⟩
  · unfold reconnectResetOutgoing
    dsimp only
    obtain ⟨i1, i2, i3, i4, i5, i6, i7, i8, i9⟩ :=
      rrOutInflightAux_spec (rrZeroStats c.msgs_out).inflight (rrZeroStats c.msgs_out)
    obtain ⟨ext, e1, e2, e3, e4⟩ :=
      rrQueuedAux_quota env.cfg c.out_packet_count .md_out
        ({ (rrOutInflightAux (rrZeroStats c.msgs_out).inflight (rrZeroStats c.msgs_out)).2 with
            inflight :=
              (rrOutInflightAux (rrZeroStats c.msgs_out).inflight (rrZeroStats c.msgs_out)).1 } :
          MsgData).queued
        []
        { (rrOutInflightAux (rrZeroStats c.msgs_out).inflight (rrZeroStats c.msgs_out)).2 with
            inflight :=
              (rrOutInflightAux (rrZeroStats c.msgs_out).inflight (rrZeroStats c.msgs_out)).1 }
        (by simp)
    refine ⟨ext, ?_, ?_, ?_⟩
    · rw [e1]
      dsimp only
      rw [i1]
      rfl
    · rw [e2]
      dsimp only
      rw [i4]
      have hz : (rrZeroStats c.msgs_out).inflight_quota = c.msgs_out.inflight_maximum := rfl
      have hzl : (rrZeroStats c.msgs_out).inflight = c.msgs_out.inflight := rfl
      rw [hz, hzl]
      omega
    · have hq : ({ (rrOutInflightAux (rrZeroStats c.msgs_out).inflight
            (rrZeroStats c.msgs_out)).2 with
          inflight :=
            (rrOutInflightAux (rrZeroStats c.msgs_out).inflight (rrZeroStats c.msgs_out)).1 } :
          MsgData).queued = c.msgs_out.queued := by
        dsimp only
        rw [i5]
        rfl
      rw [e3, hq]
  · intro m hq2 hst
    unfold rrNormalizeOut
    rw [hq2]
    simp [hst]
  · intro m hq2 hst
    unfold rrNormalizeOut
    rw [hq2]
    simp [hst]
  · intro m hq1
    unfold rrNormalizeOut
    rw [hq1]
  · intro m hq0
    unfold rrNormalizeOut
    rw [hq0]

theorem c4_reconnect_reset_outgoing_witness :
    ∃ promoted : List ClientMsg,
      (reconnectResetOutgoing sEnv c4Ctx).msgs_out.inflight
        = c4Ctx.msgs_out.inflight.map rrNormalizeOut ++ promoted ∧
      (reconnectResetOutgoing sEnv c4Ctx).msgs_out.inflight_quota
        = c4Ctx.msgs_out.inflight_maximum
          - (c4Ctx.msgs_out.inflight.countP (fun m => decide (0 < m.qos)) + promoted.length) ∧
      (reconnectResetOutgoing sEnv c4Ctx).msgs_out.queued.length + promoted.length
        = c4Ctx.msgs_out.queued.length :=
  (c4_reconnect_reset_outgoing sEnv c4Ctx).1

/-- C5: the 64-bit message ids issued by `db__new_msg_id` are strictly
increasing across any call sequence; each call composes the id from the node
prefix, seconds and fractional-seconds fields and, when the composed value is
not greater than the last issued id, returns the last issued id incremented
by one (the `while(id <= db.last_db_id) id++;` loop), storing the returned
value as the new last issued id. -/
theorem c5_msg_ids_strictly_increasing (nodeShifted last : Nat)
    (ticks : List (Nat × Nat)) :
    List.Chain' (· < ·) (runMsgIds nodeShifted last ticks) ∧
    (∀ x ∈ runMsgIds nodeShifted last ticks, last < x) ∧
    (∀ sec nsec : Nat, newMsgId nodeShifted last sec nsec
      = if composeMsgId nodeShifted sec nsec ≤ last then last + 1
        else composeMsgId nodeShifted sec nsec) :=
  ⟨(runMsgIds_spec nodeShifted ticks last).1, (runMsgIds_spec nodeShifted ticks last).2,
    fun _ _ => rfl⟩

theorem c5_msg_ids_strictly_increasing_witness :
    List.Chain' (· < ·) (runMsgIds 0 0 [(uuidEpoch + 1, 200), (uuidEpoch + 1, 200), (uuidEpoch, 0)]) :=
  (c5_msg_ids_strictly_increasing 0 0 [(uuidEpoch + 1, 200), (uuidEpoch + 1, 200), (uuidEpoch, 0)]).1

/-- C2 counterexample: a connected session where both `db__ready_for_flight`
and `db__ready_for_queue` are false for an outgoing QoS 1 insert.  The
message is dropped (`return 2`), `is_dropping` is latched — but the session's
`stats.messages_dropped` counter is NOT incremented:
`db__message_insert_outgoing` only calls `G_MSGS_DROPPED_INC()`, unlike
`db__message_insert_incoming` which also bumps
`context->stats.messages_dropped`. -/
theorem c2_drop_accounting_cex :
    readyForFlight c2Env c2Ctx .md_out 1 = false ∧
    readyForQueue c2Env c2Ctx.connected 1 c2Ctx.msgs_out = false ∧
    c2Ctx.connected = true ∧
    (insertOutgoing c2Env c2Ctx 0 9 1 false sBase1 0 false false).rc = .rc2 ∧
    (insertOutgoing c2Env c2Ctx 0 9 1 false sBase1 0 false false).ctx.is_dropping = true ∧
    ¬((insertOutgoing c2Env c2Ctx 0 9 1 false sBase1 0 false false).ctx.stats.messages_dropped
        = c2Ctx.stats.messages_dropped + 1) := by
  decide

/-- C2 (amended): when an insert rejects a message because both
`db__ready_for_flight` and `db__ready_for_queue` return false, the message is
dropped with return code 2, the session's `is_dropping` flag is latched (the
notice is logged only on the false→true transition), and the global dropped
counter (`G_MSGS_DROPPED_INC`) is incremented; the session's
`stats.messages_dropped` counter is incremented by `insert_incoming` but NOT
by `insert_outgoing`, which leaves it unchanged (bumping only
`stats.messages_sent`). -/
theorem c2_drop_accounting (env : Env) (c : Context) (cmsg_id mid qos : Nat)
    (retain : Bool) (b bIn : BaseMsg) (subid : Nat) (update persist persistIn : Bool)
    (cid : String)
    (hid : c.id = some cid)
    (hconn : c.connected = true)
    (hnodup : ¬(c.protocol_v5 = false ∧ env.cfg.allow_duplicate_messages = false ∧
        retain = false ∧ b.dest_ids.contains cid = true))
    (hflight : readyForFlight env c .md_out qos = false)
    (hqueue : readyForQueue env c.connected qos c.msgs_out = false)
    (hflightIn : readyForFlight env c .md_in bIn.qos = false)
    (hqueueIn : readyForQueue env c.connected bIn.qos c.msgs_in = false) :
    ((insertOutgoing env c cmsg_id mid qos retain b subid update persist).rc = .rc2 ∧
      (insertOutgoing env c cmsg_id mid qos retain b subid update persist).ctx.is_dropping
        = true ∧
      (insertOutgoing env c cmsg_id mid qos retain b subid update persist).loggedDrop
        = !c.is_dropping ∧
      (insertOutgoing env c cmsg_id mid qos retain b subid update persist).droppedInc = 1 ∧
      (insertOutgoing env c cmsg_id mid qos retain b subid update persist).ctx.stats.messages_dropped
        = c.stats.messages_dropped ∧
      (insertOutgoing env c cmsg_id mid qos retain b subid update persist).ctx.stats.messages_sent
        = c.stats.messages_sent + 1) ∧
    ((insertIncoming env c cmsg_id bIn persistIn).rc = .rc2 ∧
      (insertIncoming env c cmsg_id bIn persistIn).ctx.is_dropping = true ∧
      (insertIncoming env c cmsg_id bIn persistIn).loggedDrop = !c.is_dropping ∧
      (insertIncoming env c cmsg_id bIn persistIn).droppedInc = 1 ∧
      (insertIncoming env c cmsg_id bIn persistIn).ctx.stats.messages_dropped
        = c.stats.messages_dropped + 1) := by
  simp only [readyForFlight, msgsOf] at hflight hflightIn
  rw [hconn] at hqueue hqueueIn
  constructor
  · unfold insertOutgoing
    rw [hid]
    dsimp only
    rw [if_neg hnodup]
    simp [readyForFlight, msgsOf, hconn, hflight, hqueue, outgoingOfflineReject]
  · unfold insertIncoming
    rw [hid]
    dsimp only
    simp [readyForFlight, msgsOf, hconn, hflightIn, hqueueIn]

theorem c2_drop_accounting_witness :
    (insertOutgoing c2Env c2CtxIn 0 9 1 false sBase1 0 false false).ctx.stats.messages_dropped
      = c2CtxIn.stats.messages_dropped ∧
    (insertOutgoing c2Env c2CtxIn 0 9 1 false sBase1 0 false false).ctx.is_dropping = true ∧
    (insertIncoming c2Env c2CtxIn 0 sBase2 false).ctx.stats.messages_dropped
      = c2CtxIn.stats.messages_dropped + 1 ∧
    (insertIncoming c2Env c2CtxIn 0 sBase2 false).ctx.is_dropping = true :=
  ⟨(c2_drop_accounting c2Env c2CtxIn 0 9 1 false sBase1 sBase2 0 false false false "c1"
      (by decide) (by decide) (by decide) (by decide) (by decide) (by decide)
      (by decide)).1.2.2.2.2.1,
   (c2_drop_accounting c2Env c2CtxIn 0 9 1 false sBase1 sBase2 0 false false false "c1"
      (by decide) (by decide) (by decide) (by decide) (by decide) (by decide)
      (by decide)).1.2.1,
   (c2_drop_accounting c2Env c2CtxIn 0 9 1 false sBase1 sBase2 0 false false false "c1"
      (by decide) (by decide) (by decide) (by decide) (by decide) (by decide)
      (by decide)).2.2.2.2.2,
   (c2_drop_accounting c2Env c2CtxIn 0 9 1 false sBase1 sBase2 0 false false false "c1"
      (by decide) (by decide) (by decide) (by decide) (by decide) (by decide)
      (by decide)).2.2.1⟩

/-- C6: for QoS 1 or 2, `db__ready_for_flight` returns true when both
`inflight_maximum` and `max_inflight_bytes` are zero; otherwise, with
`valid_bytes ≡ inflight_bytes12 < max_inflight_bytes` and
`valid_count ≡ inflight_quota > 0`, it returns `valid_bytes` alone when
`inflight_maximum = 0`, `valid_count` alone when `max_inflight_bytes = 0`,
and their conjunction otherwise — for every session and direction. -/
theorem c6_ready_for_flight_qos12 (env : Env) (c : Context) (dir : Direction) (qos : Nat)
    (h : qos = 1 ∨ qos = 2) :
    readyForFlight env c dir qos =
      if (msgsOf c dir).inflight_maximum = 0 ∧ env.cfg.max_inflight_bytes = 0 then true
      else if (msgsOf c dir).inflight_maximum = 0 then
        decide ((msgsOf c dir).inflight_bytes12 < (env.cfg.max_inflight_bytes : Int))
      else if env.cfg.max_inflight_bytes = 0 then
        decide (0 < (msgsOf c dir).inflight_quota)
      else
        decide ((msgsOf c dir).inflight_bytes12 < (env.cfg.max_inflight_bytes : Int)) &&
          decide (0 < (msgsOf c dir).inflight_quota) := by
  rcases h with h | h <;> subst h <;> simp [readyForFlight, readyForFlightD]

theorem c6_ready_for_flight_qos12_witness :
    readyForFlight c2Env c2Ctx .md_out 1 =
      if (msgsOf c2Ctx .md_out).inflight_maximum = 0 ∧ c2Env.cfg.max_inflight_bytes = 0 then
        true
      else if (msgsOf c2Ctx .md_out).inflight_maximum = 0 then
        decide ((msgsOf c2Ctx .md_out).inflight_bytes12 < (c2Env.cfg.max_inflight_bytes : Int))
      else if c2Env.cfg.max_inflight_bytes = 0 then
        decide (0 < (msgsOf c2Ctx .md_out).inflight_quota)
      else
        decide ((msgsOf c2Ctx .md_out).inflight_bytes12 < (c2Env.cfg.max_inflight_bytes : Int)) &&
          decide (0 < (msgsOf c2Ctx .md_out).inflight_quota) :=
  c6_ready_for_flight_qos12 c2Env c2Ctx .md_out 1 (Or.inl rfl)

/-- C7: `db__message_delete_outgoing(mid, expect_state, qos)` searches the
outgoing inflight list and then the outgoing queued list for the first entry
with matching mid; when that entry's qos differs from the qos argument, or
qos is 2 and the entry's state differs from expect_state, it returns
`MOSQ_ERR_PROTOCOL` and leaves the session unchanged (the entry is not
removed, nothing is promoted, nothing is sent). -/
theorem c7_delete_outgoing_protocol (env : Env) (c : Context) (mid : Nat)
    (expect : MsgState) (qos : Nat) (m : ClientMsg)
    (hm : firstMidMatch c mid = some m)
    (hbad : m.qos ≠ qos ∨ (qos = 2 ∧ m.state ≠ expect)) :
    deleteOutgoing env c mid expect qos = (.protocol, c) := by
  unfold firstMidMatch at hm
  unfold deleteOutgoing
  cases hfi : c.msgs_out.inflight.find? (fun x => x.mid == mid) with
  | some mi =>
      rw [hfi] at hm
      dsimp only at hm
      cases hm
      rw [delScanInflight_protoErr_of_find mid expect qos _ c.msgs_out m hfi hbad]
  | none =>
      rw [hfi] at hm
      dsimp only at hm
      rw [delScanInflight_noMatch_of_find_none mid expect qos _ c.msgs_out hfi]
      rw [delScanQueued_protoErr_of_find mid expect qos _ c.msgs_out m hm hbad]

theorem c7_delete_outgoing_protocol_witness :
    deleteOutgoing sEnv c7Ctx 5 .wait_for_pubcomp 2 = (.protocol, c7Ctx) :=
  c7_delete_outgoing_protocol sEnv c7Ctx 5 .wait_for_pubcomp 2 c7Msg (by decide)
    (Or.inr ⟨rfl, by decide⟩)

/-- C8: `db__message_write_inflight_out_single` checks expiry before
dispatching on state: when the message's `message_expiry_time` is non-zero
and the wall clock has passed it, the step removes the message (restoring one
unit of send quota for outgoing messages with qos > 0) without sending any
PUBLISH or PUBREL, and the sweep over that message returns success (no error
propagated), leaving the message off the inflight list and the quota
incremented exactly when the message was outgoing with qos > 0. -/
theorem c8_write_single_expired (env : Env) (m : ClientMsg) (d : MsgData)
    (hexp : m.base_msg.message_expiry_time ≠ 0)
    (hpast : env.now > m.base_msg.message_expiry_time) :
    writeInflightOutSingle env m
      = ⟨.removeMsg (m.direction = .md_out ∧ m.qos > 0), false, false⟩ ∧
    (writeMsgs env [m] d).1 = [] ∧
    (writeMsgs env [m] d).2.2 = none ∧
    (writeMsgs env [m] d).2.1.inflight_quota
      = (if m.direction = .md_out ∧ m.qos > 0 then d.inflight_quota + 1
         else d.inflight_quota) := by
  have hstep : writeInflightOutSingle env m
      = ⟨.removeMsg (m.direction = .md_out ∧ m.qos > 0), false, false⟩ := by
    unfold writeInflightOutSingle
    rw [if_pos ⟨hexp, hpast⟩]
  refine ⟨hstep, ?_, ?_, ?_⟩ <;>
    · unfold writeMsgs
      rw [hstep]
      dsimp only
      unfold writeMsgs
      by_cases hcond : m.direction = .md_out ∧ m.qos > 0 <;>
        simp [hcond, restoreQuota, removeFromInflightStats]

theorem c8_write_single_expired_witness :
    writeInflightOutSingle sEnv c8Msg
      = ⟨.removeMsg (c8Msg.direction = .md_out ∧ c8Msg.qos > 0), false, false⟩ ∧
    (writeMsgs sEnv [c8Msg] sEmptyData).1 = [] ∧
    (writeMsgs sEnv [c8Msg] sEmptyData).2.2 = none ∧
    (writeMsgs sEnv [c8Msg] sEmptyData).2.1.inflight_quota
      = (if c8Msg.direction = .md_out ∧ c8Msg.qos > 0 then sEmptyData.inflight_quota + 1
         else sEmptyData.inflight_quota) :=
  c8_write_single_expired sEnv c8Msg sEmptyData (by decide) (by decide)

/-- C9: `db__message_insert_outgoing` increments the session's
`stats.messages_sent` counter on every call with a non-null context that has
a non-null id — including calls that return success immediately because of
duplicate suppression and calls that drop the message — so the counter counts
attempts, not admissions. -/
theorem c9_messages_sent_counts_attempts (env : Env) (c : Context) (cmsg_id mid qos : Nat)
    (retain : Bool) (base : BaseMsg) (subid : Nat) (update persist : Bool) (cid : String)
    (hid : c.id = some cid) :
    (insertOutgoing env c cmsg_id mid qos retain base subid update persist).ctx.stats.messages_sent
      = c.stats.messages_sent + 1 := by
  unfold insertOutgoing
  rw [hid]
  dsimp only
  split
  · rfl
  · split
    · rfl
    · split
      · split
        · simp [insertOutgoingAdmit_stats]
        · split
          · simp [insertOutgoingAdmit_stats]
          · rfl
      · split
        · simp [insertOutgoingAdmit_stats]
        · rfl

theorem c9_messages_sent_counts_attempts_witness :
    (insertOutgoing sEnv sCtx 0 10 1 false sBase1 0 false false).ctx.stats.messages_sent
      = sCtx.stats.messages_sent + 1 :=
  c9_messages_sent_counts_attempts sEnv sCtx 0 10 1 false sBase1 0 false false "c1" rfl

/-- C10: `db__message_insert_outgoing` and `db__message_insert_incoming`
called with a null session return `MOSQ_ERR_INVAL`, and called with a session
whose client id is null return `MOSQ_ERR_SUCCESS` without any observable
change: the session (lists, counters, flags), the base message (including
`ref_count` and `dest_ids`), the global dropped counter and the log are all
untouched. -/
theorem c10_null_guards (env : Env) (cmsg_id mid qos cmsgIn : Nat) (retain : Bool)
    (b bIn : BaseMsg) (subid : Nat) (update persist persistIn : Bool) :
    insertOutgoingOpt env none cmsg_id mid qos retain b subid update persist
      = (.inval, none, b) ∧
    insertIncomingOpt env none cmsgIn bIn persistIn = (.inval, none, bIn) ∧
    (∀ c : Context, c.id = none →
      insertOutgoing env c cmsg_id mid qos retain b subid update persist
        = ⟨.ok, c, b, 0, false⟩) ∧
    (∀ c : Context, c.id = none →
      insertIncoming env c cmsgIn bIn persistIn = ⟨.ok, c, bIn, 0, false⟩) := by
  refine ⟨rfl, rfl, ?_, ?_⟩
  · intro c hc
    unfold insertOutgoing
    rw [hc]
  · intro c hc
    unfold insertIncoming
    rw [hc]

theorem c10_null_guards_witness :
    insertOutgoingOpt sEnv none 0 10 1 false sBase1 0 false false = (.inval, none, sBase1) ∧
    insertOutgoing sEnv sCtxNoId 0 10 1 false sBase1 0 false false
      = ⟨.ok, sCtxNoId, sBase1, 0, false⟩ ∧
    insertIncoming sEnv sCtxNoId 0 sBase2 false = ⟨.ok, sCtxNoId, sBase2, 0, false⟩ :=
  ⟨(c10_null_guards sEnv 0 10 1 0 false sBase1 sBase2 0 false false false).1,
   (c10_null_guards sEnv 0 10 1 0 false sBase1 sBase2 0 false false false).2.2.1 sCtxNoId rfl,
   (c10_null_guards sEnv 0 10 1 0 false sBase1 sBase2 0 false false false).2.2.2 sCtxNoId rfl⟩

end Mosq
